import Mathlib

/-!
Verification development for the credit-report parsing pipeline.

The Python sources are shallowly embedded here: strings become lists of
characters, floats become rationals, fallible code returns Option or
Except, and the module-level functions keep their source names inside
namespaces that mirror the source files (CB for credit_bureau, NORM for
normalize, TU for parse_transunion, EXP for parse_experian, EQX for
parse_equifax, PA for parse_any, TXT for text_utils, SEG for the section
segmenter shared by the extractor files).

Definitions come first, theorems afterwards.  The only theorems placed
among the definitions are the termination bounds that well-founded
recursive definitions need.
-/

namespace CRA

/-! ### Character and string utilities shared by the embedded modules -/

/-- Whitespace recognized by the Python str.strip and regex whitespace
classes, restricted to the ASCII range the pipeline manipulates. -/
def isPyWs (c : Char) : Bool :=
  c == ' ' || c == '\t' || c == '\n' || c == '\r' || c == '\x0b' || c == '\x0c'

/-- Lowercasing as used on the keyword signals: per-character ASCII
lowering, matching Python str.lower on the ASCII signal phrases. -/
def pyLower (l : List Char) : List Char := l.map Char.toLower

/-- Python str.strip: drop whitespace from both ends. -/
def pyStrip (l : List Char) : List Char :=
  ((l.dropWhile isPyWs).reverse.dropWhile isPyWs).reverse

/-- Does the second list start with the first one? -/
def leadsWith : List Char → List Char → Bool
  | [], _ => true
  | _ :: _, [] => false
  | a :: as, b :: bs => a == b && leadsWith as bs

/-- Substring containment, the Python expression needle in hay. -/
def containsSub (needle : List Char) : List Char → Bool
  | [] => needle.isEmpty
  | c :: t => leadsWith needle (c :: t) || containsSub needle t

/-- Regex word characters, the class backslash-w. -/
def isWordChar (c : Char) : Bool := c.isAlphanum || c == '_'

/-- Needle matches at the head of rest, with a word boundary right after
it.  Used for needles made of word characters only. -/
def boundaryAt (needle rest : List Char) : Bool :=
  leadsWith needle rest &&
    (match rest.drop needle.length with
     | [] => true
     | c :: _ => !isWordChar c)

/-- Scanner for a word-bounded regex search; the flag tells whether the
previous character was a non-word character (or the string start). -/
def boundarySearchGo (needle : List Char) : List Char → Bool → Bool
  | [], _ => false
  | c :: t, left =>
    (left && boundaryAt needle (c :: t)) || boundarySearchGo needle t (!isWordChar c)

/-- Word-bounded search of a word-only needle in hay, the Python
re.search of a backslash-b bounded literal. -/
def boundarySearch (needle hay : List Char) : Bool := boundarySearchGo needle hay true

/-- The Python expression sep.join for a single-space separator. -/
def joinSpace : List (List Char) → List Char
  | [] => []
  | [x] => x
  | x :: y :: t => x ++ ' ' :: joinSpace (y :: t)

/-! ### normalize: NONE_TOKENS and parse_amount -/

namespace NORM

/-- The NONE_TOKENS set from normalize. -/
def NONE_TOKENS : List (List Char) :=
  [[], ['-'], ['—'], "na".data, "n/a".data, "none".data]

/-- One numeric token of the amount regex: sign, integer digits,
fractional digits (empty when no fractional part matched). -/
structure NumTok where
  neg : Bool
  intPart : List Char
  fracPart : List Char
deriving Repr, DecidableEq

/-- After the integer digits: consume a dot plus digits when present
(the greedy optional fractional group), otherwise consume nothing. -/
def fracScan (r : List Char) : List Char × List Char :=
  match r with
  | [] => ([], [])
  | c :: r2 =>
    if c = '.' then
      if (r2.takeWhile Char.isDigit).isEmpty then ([], c :: r2)
      else (r2.takeWhile Char.isDigit, r2.dropWhile Char.isDigit)
    else ([], c :: r2)

theorem fracScan_length (r : List Char) : (fracScan r).2.length ≤ r.length := by
  match r with
  | [] => simp [fracScan]
  | c :: r2 =>
    simp only [fracScan]
    split
    · split
      · simp
      · have := (List.dropWhile_sublist (l := r2) (p := Char.isDigit)).length_le
        simp
        omega
    · simp

/-- Is the first character of the list a digit? -/
def headDigit : List Char → Bool
  | [] => false
  | d :: _ => d.isDigit

/-- The token scan of re.findall over the amount regex: leftmost scan,
greedy digits, optional greedy fractional part, a minus sign only
binding when a digit follows it. -/
def scanTokens : List Char → List NumTok
  | [] => []
  | c :: t =>
    if c.isDigit then
      ⟨false, (c :: t).takeWhile Char.isDigit,
          (fracScan ((c :: t).dropWhile Char.isDigit)).1⟩
        :: scanTokens (fracScan ((c :: t).dropWhile Char.isDigit)).2
    else if c = '-' && headDigit t then
      ⟨true, t.takeWhile Char.isDigit, (fracScan (t.dropWhile Char.isDigit)).1⟩
        :: scanTokens (fracScan (t.dropWhile Char.isDigit)).2
    else scanTokens t
termination_by l => l.length
decreasing_by
  · simp only [List.length_cons]
    have h1 : ((c :: t).dropWhile Char.isDigit).length ≤ t.length := by
      rename_i hd
      rw [List.dropWhile_cons_of_pos hd]
      exact (List.dropWhile_sublist _).length_le
    have h2 := fracScan_length ((c :: t).dropWhile Char.isDigit)
    omega
  · simp only [List.length_cons]
    have h2 := le_trans (fracScan_length (t.dropWhile Char.isDigit))
      (List.dropWhile_sublist _).length_le
    omega
  · simp only [List.length_cons]; omega

/-- Value of a digit string read most-significant first. -/
def digitsToNat (l : List Char) : ℕ := l.foldl (fun n c => 10 * n + (c.toNat - 48)) 0

/-- Value of a numeric token as an exact rational (the float conversion
of the matched token). -/
def tokVal (t : NumTok) : ℚ :=
  let v : ℚ := (digitsToNat t.intPart : ℚ) +
    (digitsToNat t.fracPart : ℚ) / (10 : ℚ) ^ t.fracPart.length
  if t.neg then -v else v

/-- Input domain of parse_amount: None, a numeric value, or a string. -/
inductive PyVal where
  | pynone
  | pynum (x : ℚ)
  | pystr (s : String)

/-- Remove currency symbols and thousands separators, then strip. -/
def stripMoney (l : List Char) : List Char :=
  pyStrip (l.filter (fun c => !(c == '$' || c == ',')))

/-- normalize.parse_amount. -/
def parse_amount (val : PyVal) : Option ℚ :=
  match val with
  | .pynone => none
  | .pynum x => some x
  | .pystr s =>
    let s1 := pyStrip s.data
    if pyLower s1 ∈ NONE_TOKENS then none
    else
      match (scanTokens (stripMoney s1)).getLast? with
      | none => none
      | some t => some (tokVal t)

end NORM

/-! ### Plain-numeral formatting of a finite-decimal value, used to
state the round trip through parse_amount -/

/-- The character of one decimal digit. -/
def digitChar (d : ℕ) : Char :=
  match d with
  | 0 => '0'
  | 1 => '1'
  | 2 => '2'
  | 3 => '3'
  | 4 => '4'
  | 5 => '5'
  | 6 => '6'
  | 7 => '7'
  | 8 => '8'
  | 9 => '9'
  | _ => '0'

/-- The ten decimal digit characters. -/
def digitList : List Char := "0123456789".data

/-- Decimal digit characters of a natural number, most significant
first; empty for zero. -/
def natChars (n : ℕ) : List Char := ((Nat.digits 10 n).map digitChar).reverse

/-- Decimal digit characters of a natural number, printing zero as one
zero digit. -/
def natCharsZ (n : ℕ) : List Char := if n = 0 then ['0'] else natChars n

/-- Digits of a fractional part, zero padded on the left to width k. -/
def padFrac (k a : ℕ) : List Char :=
  ((Nat.digits 10 a ++ List.replicate (k - (Nat.digits 10 a).length) 0).map digitChar).reverse

/-- Plain decimal numeral of the rational m / 10 ^ k: optional minus
sign, integer digits, and for positive k a point followed by exactly k
fractional digits. -/
def fmtDec (m : ℤ) (k : ℕ) : List Char :=
  (if m < 0 then ['-'] else []) ++
    natCharsZ (m.natAbs / 10 ^ k) ++
    (if k = 0 then [] else '.' :: padFrac k (m.natAbs % 10 ^ k))

/-! ### credit_bureau: keyword scores and bureau detection -/

/-- The three source layouts the classifier distinguishes. -/
inductive Bureau where
  | transunion
  | experian
  | equifax
deriving Repr, DecidableEq

namespace CB

/-- The per-bureau score vector, in the insertion order of the source
mapping: transunion, experian, equifax. -/
structure Scores where
  transunion : ℕ
  experian : ℕ
  equifax : ℕ
deriving Repr, DecidableEq

/-- credit_bureau._scores: weighted keyword signals over the lowered
text; the two private-use glyph signals are tested on the raw text. -/
def scores (text : List Char) : Scores :=
  if text.isEmpty then ⟨0, 0, 0⟩
  else
    let t := pyLower text
    { transunion :=
        (if containsSub "satisfactory accounts".data t then 2 else 0) +
        (if containsSub "payment/remarks key".data t then 2 else 0) +
        (if containsSub "satisfactory accounts / account information".data t then 3 else 0) +
        (if containsSub "annualcreditreport.transunion.com".data t then 3 else 0)
      experian :=
        (if containsSub "annual credit report - experian".data t then 3 else 0) +
        (if containsSub "balance histories".data t then 2 else 0) +
        (if containsSub "account info".data t then 1 else 0) +
        (if containsSub "î§Ż".data text || containsSub "î§¬".data text then 2 else 0)
      equifax :=
        (if containsSub "your credit report summary".data t then 3 else 0) +
        (if containsSub "narrative code".data t then 2 else 0) +
        (if containsSub "credit accounts".data t then 2 else 0) +
        (if containsSub "narrative code".data t && containsSub "description".data t
          then 1 else 0) }

/-- The fixed tie-break priority order. -/
def priorityList : List Bureau := [.transunion, .experian, .equifax]

/-- credit_bureau.detect_bureau_with_scores. -/
def detect_bureau_with_scores (text : List Char) : Bureau × Scores :=
  let s := scores text
  let best := max s.transunion (max s.experian s.equifax)
  if best = 0 then (.experian, s)
  else
    let candidates :=
      (([(Bureau.transunion, s.transunion), (Bureau.experian, s.experian),
        (Bureau.equifax, s.equifax)].filter (fun p => p.2 = best)).map Prod.fst)
    match priorityList.find? (fun b => candidates.contains b) with
    | some b => (b, s)
    | none => (.experian, s)

/-- credit_bureau.detect_bureau. -/
def detect_bureau (text : List Char) : Bureau := (detect_bureau_with_scores text).1

end CB

/-! ### text_utils.clean_text -/

namespace TXT

/-- text_utils._is_pua: private use area code points. -/
def isPUA (c : Char) : Bool :=
  (0xE000 ≤ c.toNat && c.toNat ≤ 0xF8FF) ||
  (0xF0000 ≤ c.toNat && c.toNat ≤ 0xFFFFD) ||
  (0x100000 ≤ c.toNat && c.toNat ≤ 0x10FFFD)

/-- Index of the last newline in the list, if any. -/
def lastNl : List Char → Option ℕ
  | [] => none
  | c :: t =>
    match lastNl t with
    | some i => some (i + 1)
    | none => if c = '\n' then some 0 else none

/-- Matcher for the page-break regex at the current position: one or
more newlines and further whitespace, the case-insensitive literal
===PAGE, whitespace, digits, ===, then trailing whitespace that must
include a newline; the match ends right after the last newline of that
trailing run.  Returns the remainder after the match. -/
def matchPage (l : List Char) : Option (List Char) :=
  match l with
  | '\n' :: _ =>
    let r1 := l.dropWhile isPyWs
    if leadsWith "===page".data (pyLower r1) then
      let r2 := r1.drop 7
      if (r2.takeWhile isPyWs).isEmpty then none
      else
        let r3 := r2.dropWhile isPyWs
        if (r3.takeWhile Char.isDigit).isEmpty then none
        else
          let r4 := r3.dropWhile Char.isDigit
          if leadsWith "===".data r4 then
            let r5 := r4.drop 3
            match lastNl (r5.takeWhile isPyWs) with
            | none => none
            | some i => some (r5.drop (i + 1))
          else none
    else none
  | _ => none

/-- Substitution of every page-break match by one newline, scanning
left to right.  The fuel only bounds the recursion; every step consumes
at least one character, so fuel of length plus one never runs out. -/
def pageSub : ℕ → List Char → List Char
  | 0, l => l
  | _ + 1, [] => []
  | fuel + 1, c :: t =>
    match matchPage (c :: t) with
    | some rest => '\n' :: pageSub fuel rest
    | none => c :: pageSub fuel t

/-- Space or tab. -/
def isSpaceTab (c : Char) : Bool := c == ' ' || c == '\t'

/-- Collapse runs of two or more spaces or tabs into one space,
keeping single spaces and single tabs.  Fuel as in pageSub. -/
def collapseSpaces : ℕ → List Char → List Char
  | 0, l => l
  | _ + 1, [] => []
  | fuel + 1, c :: t =>
    if isSpaceTab c then
      if 2 ≤ ((c :: t).takeWhile isSpaceTab).length then
        ' ' :: collapseSpaces fuel ((c :: t).dropWhile isSpaceTab)
      else c :: collapseSpaces fuel t
    else c :: collapseSpaces fuel t

/-- text_utils.clean_text: remove page-break markers, normalize
non-breaking spaces, blank private-use glyphs, collapse runs of
horizontal whitespace. -/
def clean_chars (text : List Char) : List Char :=
  let s1 := pageSub (text.length + 1) text
  let s2 := s1.map (fun c => if c = '\xa0' then ' ' else c)
  let s3 := s2.map (fun c => if isPUA c then ' ' else c)
  collapseSpaces (s3.length + 1) s3

/-- Python str.splitlines line-break characters. -/
def isLineBreakCh (c : Char) : Bool :=
  c == '\n' || c == '\r' || c == '\x0b' || c == '\x0c' ||
  c == '\x1c' || c == '\x1d' || c == '\x1e' || c == '\x85' ||
  c == '\u2028' || c == '\u2029'

/-- Worker for splitlines: split at every line break, treating a
carriage return plus newline pair as one break; acc holds the current
line reversed. -/
def splitAll : List Char → List Char → List (List Char)
  | [], acc => [acc.reverse]
  | '\r' :: '\n' :: t, acc => acc.reverse :: splitAll t []
  | c :: t, acc =>
    if isLineBreakCh c then acc.reverse :: splitAll t []
    else splitAll t (c :: acc)

/-- Python str.splitlines: a terminator at the very end does not open a
final empty line. -/
def pySplitlines (l : List Char) : List (List Char) :=
  match l with
  | [] => []
  | _ :: _ =>
    let parts := splitAll l []
    match parts.getLast? with
    | some [] => parts.dropLast
    | _ => parts

end TXT

/-! ### parse_any: classification gate of the orchestrator -/

namespace PA

/-- The UnknownFormatError message: diagnostic header plus the first 20
lines of the cleaned text. -/
def unknown_msg (cleaned : List Char) : List Char :=
  "Could not detect bureau. First lines:\n".data ++
    List.intercalate ['\n'] ((TXT.pySplitlines cleaned).take 20)

/-- parse_any.parse_report up to extractor dispatch: clean the extracted
full text, detect the bureau, fail with the UnknownFormatError message
when the maximum score is zero, otherwise dispatch to the extractor of
the detected bureau (the returned value records which extractor runs;
the extractor bodies are modelled by the per-bureau account builders
elsewhere in this file). -/
def parse_report (full_text : String) : Except String Bureau :=
  let cleaned := TXT.clean_chars full_text.data
  let bs := CB.detect_bureau_with_scores cleaned
  if max bs.2.transunion (max bs.2.experian bs.2.equifax) = 0 then
    .error (String.mk (unknown_msg cleaned))
  else
    match bs.1 with
    | .transunion => .ok .transunion
    | .experian => .ok .experian
    | .equifax => .ok .equifax

end PA

/-! ### The section segmenter _find_span, identical in the extractor
files parse_transunion, parse_experian and parse_equifax -/

namespace SEG

/-- A compiled pattern abstracted by its search behaviour: given the
text and a start offset, the offsets of the first match at or after the
start (match start, match end), or none. -/
def SearchFun : Type := String → ℕ → Option (ℕ × ℕ)

/-- _find_span: sentinel pair for a missing start anchor, otherwise the
span from just after the first start-anchor match to the earliest
end-anchor match, capped by the end of the text. -/
def find_span (text : String) (start_pat : SearchFun) (end_pats : List SearchFun) :
    ℤ × ℤ :=
  match start_pat text 0 with
  | none => (-1, -1)
  | some m =>
    let start := m.2
    let e := end_pats.foldl (fun e pat =>
      match pat text start with
      | some m2 => min e m2.1
      | none => e) text.length
    ((start : ℤ), (e : ℤ))

end SEG

/-! ### models: the enumerations and record types -/

/-- The seven account kinds of models.Account. -/
inductive Kind where
  | revolving
  | mortgage
  | installment
  | open'
  | lease
  | student
  | other
deriving Repr, DecidableEq

/-- The nine account statuses of models.Account. -/
inductive Status where
  | open'
  | closed
  | transferred
  | sold
  | paid
  | collection
  | chargeoff
  | delinquent
  | current
deriving Repr, DecidableEq

/-- A calendar date as carried by the models. -/
structure PyDate where
  year : ℕ
  month : ℕ
  day : ℕ
deriving Repr, DecidableEq

/-- One monthly payment-history row as built by the table parsers. -/
structure HistRow where
  month : String
  balance : Option ℚ
  scheduled_payment : Option ℚ
  past_due : Option ℚ
  rating : String
deriving Repr, DecidableEq

/-- models.Account. -/
structure Account where
  creditor : String
  masked_number : Option String
  kind : Kind
  status : Status
  responsibility : Option String
  opened_on : Option PyDate
  closed_on : Option PyDate
  credit_limit : Option ℚ
  high_balance : Option ℚ
  balance : Option ℚ
  scheduled_payment : Option ℚ
  past_due : Option ℚ
  payment_history : List HistRow
  remarks : List String
deriving Repr, DecidableEq

/-- models.Inquiry kinds. -/
inductive InqKind where
  | hard
  | soft
  | promotional
  | account_review
deriving Repr, DecidableEq

/-- models.Inquiry. -/
structure Inquiry where
  name : String
  kind : InqKind
  date : PyDate
deriving Repr, DecidableEq

/-- models.PublicRecord; the free-form details mapping holds at least
the source paragraph text. -/
structure PublicRecord where
  type : String
  date : Option PyDate
  details : String
deriving Repr, DecidableEq

/-- The derived summary mapping computed by normalize.compute_summary. -/
structure Summary where
  total_revolving_limit : ℚ
  total_revolving_balance : ℚ
  utilization : Option ℚ
  open_cards : ℕ
  mortgages : ℕ
  student_loans : ℕ
  auto_loans : ℕ
deriving Repr, DecidableEq

/-- models.CreditReport; summary is none until normalize fills it. -/
structure CreditReport where
  bureau : Option Bureau
  pulled_on : Option PyDate
  person : List (String × String)
  accounts : List Account
  inquiries : List Inquiry
  public_records : List PublicRecord
  summary : Option Summary
  raw_chunks : List String
deriving Repr, DecidableEq

/-! ### parse_transunion: kind and status mapping, numeric guardrails,
account construction -/

namespace TU

/-- parse_transunion._map_kind. -/
def map_kind (account_type : List Char) (loan_type : Option (List Char)) : Kind :=
  let atl := pyLower account_type
  let ltl := pyLower (loan_type.getD [])
  if containsSub "revolving".data atl || containsSub "revolving".data ltl then .revolving
  else if containsSub "mortgage".data atl || containsSub "mortgage".data ltl then .mortgage
  else if containsSub "installment".data atl || containsSub "installment".data ltl then
    .installment
  else if containsSub "lease".data atl || containsSub "lease".data ltl then .lease
  else if containsSub "student".data atl || containsSub "student".data ltl then .student
  else if leadsWith "open".data atl || containsSub "open account".data atl then .open'
  else .other

/-- parse_transunion._map_status. -/
def map_status (pay_status : List Char) (remarks : List (List Char)) : Status :=
  let ps := pyLower pay_status
  let joined := pyLower (joinSpace remarks)
  let hay := ps ++ ' ' :: joined
  if containsSub "current account".data hay || boundarySearch "current".data ps then .current
  else if containsSub "paid".data hay && containsSub "closed".data hay then .closed
  else if containsSub "transferred".data hay then .transferred
  else if boundarySearch "sold".data hay then .sold
  else if containsSub "collection".data hay then .collection
  else if containsSub "charge-off".data hay || containsSub "chargeoff".data hay ||
      containsSub "charge off".data hay then .chargeoff
  else if containsSub "30".data hay || containsSub "60".data hay ||
      containsSub "90".data hay || containsSub "120".data hay ||
      containsSub "late".data hay || containsSub "delinquent".data hay then .delinquent
  else if containsSub "closed".data hay then .closed
  else .open'

/-- The raw per-block fields of one TransUnion account, as produced by
the regex probes of _parse_accounts before the guardrails run. -/
structure RawTU where
  creditor : Option String
  masked_number : Option String
  account_type : Option String
  loan_type : Option String
  pay_status : Option String
  remarks : List String
  responsibility : Option String
  opened_on : Option PyDate
  closed_on : Option PyDate
  credit_limit : Option ℚ
  high_balance : Option ℚ
  balance : Option ℚ
  monthly_payment : Option ℚ
  past_due : Option ℚ
  payment_history : List HistRow

/-- The clamp_limit guardrail nested in _parse_accounts. -/
def clamp_limit (x : Option ℚ) : Option ℚ :=
  match x with
  | none => none
  | some v => if v < 100 ∨ 10000000 < v then none else some v

/-- The clamp_nonneg guardrail nested in _parse_accounts. -/
def clamp_nonneg (x : Option ℚ) : Option ℚ :=
  match x with
  | none => none
  | some v => some (max 0 v)

/-- The account construction tail of _parse_accounts: kind and status
mapping, guardrails, high-balance substitution, Account literal. -/
def build_account (r : RawTU) : Account :=
  let kind := map_kind ((r.account_type.getD "").data) (r.loan_type.map String.data)
  let status := map_status ((r.pay_status.getD "").data) (r.remarks.map String.data)
  let credit_limit := clamp_limit r.credit_limit
  let high_balance := clamp_nonneg r.high_balance
  let balance := clamp_nonneg r.balance
  let monthly_payment := clamp_nonneg r.monthly_payment
  let past_due_val := clamp_nonneg r.past_due
  let credit_limit2 :=
    if credit_limit = none ∧ high_balance ≠ none then clamp_limit high_balance
    else credit_limit
  { creditor := r.creditor.getD ""
    masked_number :=
      match r.masked_number with
      | some s => if s.isEmpty then none else some s
      | none => none
    kind := kind
    status := status
    responsibility := r.responsibility
    opened_on := r.opened_on
    closed_on := r.closed_on
    credit_limit := credit_limit2
    high_balance := high_balance
    balance := balance
    scheduled_payment := monthly_payment
    past_due := past_due_val
    payment_history := r.payment_history
    remarks := r.remarks }

end TU

/-! ### parse_experian: kind and status mapping, guardrails, account
construction -/

namespace EXP

/-- parse_experian._map_kind. -/
def map_kind (account_type : Option (List Char)) : Kind :=
  let atl := pyLower (account_type.getD [])
  if containsSub "credit card".data atl then .revolving
  else if containsSub "mortgage".data atl || containsSub "conventional".data atl then
    .mortgage
  else if containsSub "education".data atl || containsSub "student".data atl then .student
  else if containsSub "lease".data atl then .lease
  else if containsSub "auto".data atl || containsSub "installment".data atl ||
      containsSub "personal loan".data atl || containsSub "loan".data atl then .installment
  else if leadsWith "open".data atl then .open'
  else .other

/-- parse_experian._map_status. -/
def map_status (status : Option (List Char)) : Status :=
  let s := pyLower (status.getD [])
  if containsSub "open".data s && containsSub "never late".data s then .current
  else if containsSub "paid".data s && containsSub "closed".data s then .closed
  else if containsSub "transferred".data s then .transferred
  else if containsSub "sold".data s then .sold
  else if containsSub "collection".data s then .collection
  else if containsSub "charge-off".data s || containsSub "charge off".data s ||
      containsSub "chargeoff".data s then .chargeoff
  else if containsSub "30".data s || containsSub "60".data s ||
      containsSub "90".data s || containsSub "120".data s ||
      containsSub "late".data s || containsSub "delinquent".data s then .delinquent
  else if containsSub "closed".data s then .closed
  else if containsSub "paid".data s then .paid
  else .open'

/-- The raw per-block fields of one Experian account card. -/
structure RawEXP where
  creditor : Option String
  masked_number : Option String
  account_type : Option String
  status : Option String
  responsibility : Option String
  opened_on : Option PyDate
  monthly_payment : Option ℚ
  credit_limit : Option ℚ
  highest_balance : Option ℚ
  balance : Option ℚ
  payment_history : List HistRow

/-- The clamp_limit guardrail nested in _parse_accounts. -/
def clamp_limit (x : Option ℚ) : Option ℚ :=
  match x with
  | none => none
  | some v => if v < 100 ∨ 10000000 < v then none else some v

/-- The clamp_nonneg guardrail nested in _parse_accounts. -/
def clamp_nonneg (x : Option ℚ) : Option ℚ :=
  match x with
  | none => none
  | some v => some (max 0 v)

/-- The account construction tail of _parse_accounts. -/
def build_account (r : RawEXP) : Account :=
  let credit_limit := clamp_limit r.credit_limit
  let highest_balance := clamp_nonneg r.highest_balance
  let balance := clamp_nonneg r.balance
  let monthly_payment := clamp_nonneg r.monthly_payment
  let credit_limit2 :=
    if credit_limit = none ∧ highest_balance ≠ none then clamp_limit highest_balance
    else credit_limit
  { creditor := r.creditor.getD ""
    masked_number :=
      match r.masked_number with
      | some s => if s.isEmpty then none else some s
      | none => none
    kind := map_kind (r.account_type.map String.data)
    status := map_status (r.status.map String.data)
    responsibility := r.responsibility
    opened_on := r.opened_on
    closed_on := none
    credit_limit := credit_limit2
    high_balance := highest_balance
    balance := balance
    scheduled_payment := monthly_payment
    past_due := none
    payment_history := r.payment_history
    remarks := [] }

end EXP

/-! ### parse_equifax: kind and status mapping, guardrails, account
construction -/

namespace EQX

/-- parse_equifax._map_kind. -/
def map_kind (text : Option (List Char)) : Kind :=
  let t := pyLower (text.getD [])
  if containsSub "revolving".data t || containsSub "credit card".data t then .revolving
  else if containsSub "mortgage".data t || containsSub "home".data t then .mortgage
  else if containsSub "student".data t || containsSub "education".data t then .student
  else if containsSub "lease".data t then .lease
  else if containsSub "installment".data t || containsSub "auto".data t ||
      containsSub "loan".data t then .installment
  else if leadsWith "open".data t then .open'
  else .other

/-- parse_equifax._map_status. -/
def map_status (status : Option (List Char)) (narratives : List (List Char)) : Status :=
  let s := pyLower (status.getD [])
  let joined := pyLower (joinSpace narratives)
  let hay := s ++ ' ' :: joined
  if containsSub "pays as agreed".data hay ||
      (containsSub "open".data s && containsSub "never late".data hay) then .current
  else if containsSub "paid".data hay && containsSub "closed".data hay then .closed
  else if containsSub "transfer".data hay && containsSub "sold".data hay then .sold
  else if containsSub "transfer".data hay then .transferred
  else if containsSub "sold".data hay then .sold
  else if containsSub "collection".data hay then .collection
  else if containsSub "charge-off".data hay || containsSub "charge off".data hay ||
      containsSub "chargeoff".data hay then .chargeoff
  else if containsSub "30".data hay || containsSub "60".data hay ||
      containsSub "90".data hay || containsSub "120".data hay ||
      containsSub "late".data hay || containsSub "delinquent".data hay then .delinquent
  else if containsSub "closed".data hay then .closed
  else if containsSub "paid".data hay then .paid
  else .open'

/-- The raw per-block fields of one Equifax account block. -/
structure RawEQX where
  creditor : Option String
  account_number : Option String
  loan_type : Option String
  status : Option String
  narratives : List String
  owner : Option String
  opened_on : Option PyDate
  closed_on : Option PyDate
  balance : Option ℚ
  credit_limit : Option ℚ
  high_credit : Option ℚ
  payment_history : List HistRow

/-- The clamp_limit guardrail nested in _extract_accounts. -/
def clamp_limit (x : Option ℚ) : Option ℚ :=
  match x with
  | none => none
  | some v => if v < 100 ∨ 10000000 < v then none else some v

/-- The clamp_nonneg guardrail nested in _extract_accounts. -/
def clamp_nonneg (x : Option ℚ) : Option ℚ :=
  match x with
  | none => none
  | some v => some (max 0 v)

/-- The account construction tail of _extract_accounts. -/
def build_account (r : RawEQX) : Account :=
  let credit_limit := clamp_limit r.credit_limit
  let high_credit := clamp_nonneg r.high_credit
  let balance := clamp_nonneg r.balance
  let credit_limit2 :=
    if credit_limit = none ∧ high_credit ≠ none then clamp_limit high_credit
    else credit_limit
  { creditor := r.creditor.getD ""
    masked_number :=
      match r.account_number with
      | some s => if s.isEmpty then none else some s
      | none => none
    kind := map_kind (r.loan_type.map String.data)
    status := map_status (r.status.map String.data) (r.narratives.map String.data)
    responsibility := r.owner
    opened_on := r.opened_on
    closed_on := r.closed_on
    credit_limit := credit_limit2
    high_balance := high_credit
    balance := balance
    scheduled_payment := none
    past_due := none
    payment_history := r.payment_history
    remarks := r.narratives }

end EQX

/-! ### normalize: summary aggregation -/

namespace NORM

/-- normalize._is_open. -/
def is_open (a : Account) : Bool := a.status == .open' || a.status == .current

/-- normalize._is_auto_loan. -/
def is_auto_loan (a : Account) : Bool :=
  a.kind == .installment &&
    (let hay := pyLower (a.creditor.data ++ ' ' :: joinSpace (a.remarks.map String.data))
     containsSub "auto".data hay || containsSub "vehicle".data hay ||
       containsSub "car".data hay)

/-- Stable insertion into a month-descending list: the new row goes
after every row whose month key is at least as large, which is exactly
the placement of the stable descending sort of the source. -/
def insertMonthDesc (x : HistRow) : List HistRow → List HistRow
  | [] => [x]
  | y :: ys => if x.month ≤ y.month then y :: insertMonthDesc x ys else x :: y :: ys

/-- Stable sort of payment-history rows by month key descending, the
Python sorted with reverse true over the month string. -/
def sortMonthDesc (l : List HistRow) : List HistRow :=
  l.foldl (fun acc x => insertMonthDesc x acc) []

/-- normalize._latest_history_balance: first non-null balance in the
month-descending ordering of the rows. -/
def latest_history_balance (a : Account) : Option ℚ :=
  match a.payment_history with
  | [] => none
  | _ :: _ => (sortMonthDesc a.payment_history).findSome? (fun r => r.balance)

/-- The balance fallback of compute_summary: account balance, else the
latest history balance, else zero. -/
def current_or_latest_balance (a : Account) : ℚ :=
  match a.balance with
  | some b => b
  | none => (latest_history_balance a).getD 0

/-- Round to the nearest integer, halves to the even integer, the
rounding of the Python built-in round. -/
def round_half_even (q : ℚ) : ℤ :=
  if q - ⌊q⌋ < 1 / 2 then ⌊q⌋
  else if 1 / 2 < q - ⌊q⌋ then ⌊q⌋ + 1
  else if ⌊q⌋ % 2 = 0 then ⌊q⌋ else ⌊q⌋ + 1

/-- The Python expression round(q, 1). -/
def py_round1 (q : ℚ) : ℚ := (round_half_even (10 * q) : ℚ) / 10

/-- The filter of compute_summary: open or current revolving accounts
with a known positive credit limit. -/
def open_revolving (report : CreditReport) : List Account :=
  report.accounts.filter
    (fun a => a.kind == .revolving && is_open a &&
      (match a.credit_limit with
       | some l => decide (0 < l)
       | none => false))

/-- normalize.compute_summary. -/
def compute_summary (report : CreditReport) : Summary :=
  let sel := open_revolving report
  let total_revolving_limit := (sel.map (fun a => a.credit_limit.getD 0)).sum
  let total_revolving_balance := (sel.map current_or_latest_balance).sum
  { total_revolving_limit := total_revolving_limit
    total_revolving_balance := total_revolving_balance
    utilization :=
      if 0 < total_revolving_limit then
        some (py_round1 (total_revolving_balance / total_revolving_limit))
      else none
    open_cards := sel.length
    mortgages := (report.accounts.filter (fun a => a.kind == .mortgage)).length
    student_loans := (report.accounts.filter (fun a => a.kind == .student)).length
    auto_loans := (report.accounts.filter is_auto_loan).length }

/-- normalize.normalize: fill the summary field. -/
def normalize (report : CreditReport) : CreditReport :=
  { report with summary := some (compute_summary report) }

end NORM

/-! ### Concrete fixtures used by witnesses and examples -/

/-- One open revolving account with limit 1000 and balance 250. -/
def exAccount1 : Account :=
  { creditor := "Card"
    masked_number := none
    kind := .revolving
    status := .open'
    responsibility := none
    opened_on := none
    closed_on := none
    credit_limit := some 1000
    high_balance := none
    balance := some 250
    scheduled_payment := none
    past_due := none
    payment_history := []
    remarks := [] }

/-- A report holding only exAccount1. -/
def exReport1 : CreditReport :=
  { bureau := some .transunion
    pulled_on := none
    person := []
    accounts := [exAccount1]
    inquiries := []
    public_records := []
    summary := none
    raw_chunks := [] }

/-- A report with no accounts at all. -/
def exReport0 : CreditReport := { exReport1 with accounts := [] }

/-- A raw TransUnion block with no recovered fields. -/
def rawTU0 : TU.RawTU :=
  { creditor := none
    masked_number := none
    account_type := none
    loan_type := none
    pay_status := none
    remarks := []
    responsibility := none
    opened_on := none
    closed_on := none
    credit_limit := none
    high_balance := none
    balance := none
    monthly_payment := none
    past_due := none
    payment_history := [] }

/-- A raw TransUnion block whose parsed credit limit is the implausible
value 5, with no high balance. -/
def rawTU5 : TU.RawTU := { rawTU0 with credit_limit := some 5 }

/-- A raw TransUnion block with no credit limit and a plausible high
balance of 2000. -/
def rawTUsub : TU.RawTU := { rawTU0 with high_balance := some 2000 }

/-- A raw Experian card with no recovered fields. -/
def rawEXP0 : EXP.RawEXP :=
  { creditor := none
    masked_number := none
    account_type := none
    status := none
    responsibility := none
    opened_on := none
    monthly_payment := none
    credit_limit := none
    highest_balance := none
    balance := none
    payment_history := [] }

/-- A raw Experian card with the in-range credit limit 15000. -/
def rawEXP15k : EXP.RawEXP := { rawEXP0 with credit_limit := some 15000 }

/-- A raw Equifax block with no recovered fields. -/
def rawEQX0 : EQX.RawEQX :=
  { creditor := none
    account_number := none
    loan_type := none
    status := none
    narratives := []
    owner := none
    opened_on := none
    closed_on := none
    balance := none
    credit_limit := none
    high_credit := none
    payment_history := [] }

/-- A raw Equifax block whose parsed credit limit is the implausible
value 5, with no high credit. -/
def rawEQX5 : EQX.RawEQX := { rawEQX0 with credit_limit := some 5 }

/-- A raw Equifax block with no credit limit and a plausible high
credit of 2000. -/
def rawEQXsub : EQX.RawEQX := { rawEQX0 with high_credit := some 2000 }

/-- A start pattern matching at offsets 0 to 2. -/
def segStartW : SEG.SearchFun := fun _ _ => some (0, 2)

/-- An end pattern matching at offsets 4 to 5. -/
def segEndW1 : SEG.SearchFun := fun _ _ => some (4, 5)

/-- An end pattern that never matches. -/
def segEndW2 : SEG.SearchFun := fun _ _ => none

/-! ### General helper lemmas -/

theorem leadsWith_self (l : List Char) : leadsWith l l = true := by
  induction l with
  | nil => rfl
  | cons c t ih => simp [leadsWith, ih]

theorem containsSub_of_suffix (n p : List Char) : containsSub n (p ++ n) = true := by
  induction p with
  | nil =>
    cases n with
    | nil => rfl
    | cons c t => simp [containsSub, leadsWith_self]
  | cons a p ih =>
    simp [containsSub, ih]

theorem max3_choice (a b c : ℕ) :
    max a (max b c) = a ∨ max a (max b c) = b ∨ max a (max b c) = c := by
  rcases le_total a (max b c) with h | h
  · rw [max_eq_right h]
    rcases le_total b c with h2 | h2
    · rw [max_eq_right h2]; right; right; rfl
    · rw [max_eq_left h2]; right; left; rfl
  · left; rw [max_eq_left h]

theorem detect_snd (text : List Char) :
    (CB.detect_bureau_with_scores text).2 = CB.scores text := by
  simp only [CB.detect_bureau_with_scores]
  split
  · rfl
  · split <;> rfl

theorem foldl_min_le_init (l : List ℕ) (a : ℕ) : l.foldl min a ≤ a := by
  induction l generalizing a with
  | nil => exact le_refl _
  | cons x xs ih =>
    simp only [List.foldl_cons]
    exact le_trans (ih _) (min_le_left _ _)

theorem foldl_min_comm (l : List ℕ) (a b : ℕ) :
    l.foldl min (min a b) = min a (l.foldl min b) := by
  induction l generalizing b with
  | nil => rfl
  | cons x xs ih =>
    simp only [List.foldl_cons]
    rw [min_assoc, ih]

theorem foldl_min_eq (l : List ℕ) (L : ℕ) (h : ∀ x ∈ l, x ≤ L) :
    l.foldl min L = match l.min? with
      | none => L
      | some m => m := by
  cases l with
  | nil => rfl
  | cons x xs =>
    have hx : x ≤ L := h x (List.mem_cons_self x xs)
    have h1 : List.foldl min L (x :: xs) = min L (xs.foldl min x) := by
      simp only [List.foldl_cons]
      rw [← foldl_min_comm]
    rw [h1]
    have h2 : xs.foldl min x ≤ L := le_trans (foldl_min_le_init xs x) hx
    rw [min_eq_right h2]
    rfl

theorem fold_pats (text : String) (startOff : ℕ) (eps : List SEG.SearchFun) (L : ℕ) :
    eps.foldl (fun e pat =>
      match pat text startOff with
      | some m2 => min e m2.1
      | none => e) L
    = (eps.filterMap (fun f => (f text startOff).map Prod.fst)).foldl min L := by
  induction eps generalizing L with
  | nil => rfl
  | cons f fs ih =>
    simp only [List.foldl_cons, List.filterMap_cons]
    cases h : f text startOff with
    | none => simp only [Option.map_none']; exact ih L
    | some m2 => simp only [Option.map_some']; exact ih (min L m2.1)

/-! ### Claim theorems -/

/-- C9: the section-span finder returns the sentinel pair when the start
anchor has no match; otherwise it returns the offset just after the
first start-anchor match, paired with the minimum over all end-anchor
patterns of the start offset of that pattern of the first match at or
after the section start, or the text length when no end anchor
matches. -/
theorem c9_find_span_spec (text : String) (sp : SEG.SearchFun)
    (eps : List SEG.SearchFun) :
    (sp text 0 = none → SEG.find_span text sp eps = (-1, -1)) ∧
    (∀ ms me, sp text 0 = some (ms, me) →
      (∀ f ∈ eps, ∀ a b, f text me = some (a, b) → a ≤ text.length) →
      SEG.find_span text sp eps =
        ((me : ℤ),
          ((match (eps.filterMap (fun f => (f text me).map Prod.fst)).min? with
            | none => text.length
            | some m => m : ℕ) : ℤ))) := by
  constructor
  · intro h
    simp [SEG.find_span, h]
  · intro ms me h hb
    simp only [SEG.find_span, h]
    congr 1
    rw [fold_pats]
    congr 1
    apply foldl_min_eq
    intro x hx
    simp only [List.mem_filterMap] at hx
    obtain ⟨f, hf, hmap⟩ := hx
    cases h2 : f text me with
    | none => rw [h2] at hmap; simp at hmap
    | some ab =>
      rw [h2] at hmap
      simp only [Option.map_some', Option.some.injEq] at hmap
      subst hmap
      exact hb f hf ab.1 ab.2 (by rw [h2])

theorem c9_find_span_spec_witness :
    SEG.find_span "abcdef" segStartW [segEndW1, segEndW2] = (2, 4) := by
  have h := (c9_find_span_spec "abcdef" segStartW [segEndW1, segEndW2]).2 0 2 rfl ?_
  · rw [h]; rfl
  · intro f hf a b hab
    simp only [List.mem_cons, List.not_mem_nil, or_false] at hf
    rcases hf with rfl | rfl
    · have h6 : "abcdef".length = 6 := rfl
      simp only [segEndW1, Option.some.injEq, Prod.mk.injEq] at hab
      omega
    · simp [segEndW2] at hab

/-- C10: when no keyword signal matches (maximum score zero, including
the empty text), the classifier itself does not fail: it returns the
pair of the default bureau experian and the all-zero score vector; the
zero-signal abort is enforced only by the orchestrator. -/
theorem c10_detect_zero_default (text : List Char) :
    max (CB.scores text).transunion
      (max (CB.scores text).experian (CB.scores text).equifax) = 0 →
    CB.detect_bureau_with_scores text = (.experian, ⟨0, 0, 0⟩) := by
  intro h
  have h1 : (CB.scores text).transunion = 0 := by omega
  have h2 : (CB.scores text).experian = 0 := by omega
  have h3 : (CB.scores text).equifax = 0 := by omega
  have hs : CB.scores text = ⟨0, 0, 0⟩ := by
    cases hsc : CB.scores text
    simp_all
  simp [CB.detect_bureau_with_scores, hs]

theorem c10_detect_zero_default_witness :
    CB.detect_bureau_with_scores [] = (.experian, ⟨0, 0, 0⟩) :=
  c10_detect_zero_default [] (by decide)

theorem detect_eval (text : List Char) (s : CB.Scores) (hs : CB.scores text = s)
    (hbest : 0 < max s.transunion (max s.experian s.equifax)) :
    CB.detect_bureau_with_scores text =
      (if s.transunion = max s.transunion (max s.experian s.equifax) then .transunion
       else if s.experian = max s.transunion (max s.experian s.equifax) then .experian
       else .equifax, s) := by
  simp only [CB.detect_bureau_with_scores, hs]
  rw [if_neg (by omega)]
  set M := max s.transunion (max s.experian s.equifax) with hM
  by_cases h1 : s.transunion = M
  · rw [if_pos h1]
    simp only [CB.priorityList, List.filter_cons, List.filter_nil, decide_eq_true_eq,
      h1, if_true, if_pos rfl]
    simp [List.find?]
  · rw [if_neg h1]
    by_cases h2 : s.experian = M
    · rw [if_pos h2]
      simp only [CB.priorityList, List.filter_cons, List.filter_nil, decide_eq_true_eq,
        h1, h2]
      by_cases h3 : s.equifax = M <;> simp [h3, List.find?]
    · rw [if_neg h2]
      have h3 : s.equifax = M := by
        rcases max3_choice s.transunion s.experian s.equifax with h | h | h <;> omega
      simp only [CB.priorityList, List.filter_cons, List.filter_nil, decide_eq_true_eq,
        h1, h2, h3]
      simp [List.find?]

/-- C2: detect_bureau_with_scores returns the source with the strictly
highest total score; when two or more sources tie on a positive
maximum, it returns the first tied source in the fixed priority order
transunion, experian, equifax, independent of text order or of the
order of the score mapping. -/
theorem c2_detect_priority (text : List Char) (s : CB.Scores)
    (hs : CB.scores text = s) :
    (0 < max s.transunion (max s.experian s.equifax) →
      s.transunion = max s.transunion (max s.experian s.equifax) →
      CB.detect_bureau_with_scores text = (.transunion, s)) ∧
    (0 < max s.transunion (max s.experian s.equifax) →
      s.transunion ≠ max s.transunion (max s.experian s.equifax) →
      s.experian = max s.transunion (max s.experian s.equifax) →
      CB.detect_bureau_with_scores text = (.experian, s)) ∧
    (0 < max s.transunion (max s.experian s.equifax) →
      s.transunion ≠ max s.transunion (max s.experian s.equifax) →
      s.experian ≠ max s.transunion (max s.experian s.equifax) →
      CB.detect_bureau_with_scores text = (.equifax, s)) ∧
    (s.experian < s.transunion → s.equifax < s.transunion →
      CB.detect_bureau_with_scores text = (.transunion, s)) ∧
    (s.transunion < s.experian → s.equifax < s.experian →
      CB.detect_bureau_with_scores text = (.experian, s)) ∧
    (s.transunion < s.equifax → s.experian < s.equifax →
      CB.detect_bureau_with_scores text = (.equifax, s)) := by
  refine ⟨?_, ?_, ?_, ?_, ?_, ?_⟩
  · intro hb h1
    rw [detect_eval text s hs hb, if_pos h1]
  · intro hb h1 h2
    rw [detect_eval text s hs hb, if_neg h1, if_pos h2]
  · intro hb h1 h2
    rw [detect_eval text s hs hb, if_neg h1, if_neg h2]
  · intro ha hb
    have h1 : s.transunion = max s.transunion (max s.experian s.equifax) := by
      rcases max3_choice s.transunion s.experian s.equifax with h | h | h <;> omega
    rw [detect_eval text s hs (by omega), if_pos h1]
  · intro ha hb
    have h1 : s.transunion ≠ max s.transunion (max s.experian s.equifax) := by
      rcases max3_choice s.transunion s.experian s.equifax with h | h | h <;> omega
    have h2 : s.experian = max s.transunion (max s.experian s.equifax) := by
      rcases max3_choice s.transunion s.experian s.equifax with h | h | h <;> omega
    rw [detect_eval text s hs (by omega), if_neg h1, if_pos h2]
  · intro ha hb
    have h1 : s.transunion ≠ max s.transunion (max s.experian s.equifax) := by
      rcases max3_choice s.transunion s.experian s.equifax with h | h | h <;> omega
    have h2 : s.experian ≠ max s.transunion (max s.experian s.equifax) := by
      rcases max3_choice s.transunion s.experian s.equifax with h | h | h <;> omega
    rw [detect_eval text s hs (by omega), if_neg h1, if_neg h2]

theorem c2_detect_priority_witness :
    CB.detect_bureau_with_scores "satisfactory accounts balance histories".data =
      (.transunion, ⟨2, 2, 0⟩) :=
  (c2_detect_priority "satisfactory accounts balance histories".data
    ⟨2, 2, 0⟩ (by decide)).1 (by decide) (by decide)

/-- C1: when the cleaned full text scores zero for every source,
parse_report fails with the UnknownFormatError message, which contains
the first 20 lines of the cleaned text, and no report is produced; when
the maximum score is positive, no classification error is raised and
the pipeline dispatches to the extractor of the detected bureau. -/
theorem c1_parse_report_gate (full_text : String) :
    (max (CB.scores (TXT.clean_chars full_text.data)).transunion
        (max (CB.scores (TXT.clean_chars full_text.data)).experian
          (CB.scores (TXT.clean_chars full_text.data)).equifax) = 0 →
      PA.parse_report full_text =
        .error (String.mk (PA.unknown_msg (TXT.clean_chars full_text.data))) ∧
      containsSub
        (List.intercalate ['\n']
          ((TXT.pySplitlines (TXT.clean_chars full_text.data)).take 20))
        (PA.unknown_msg (TXT.clean_chars full_text.data)) = true) ∧
    (0 < max (CB.scores (TXT.clean_chars full_text.data)).transunion
        (max (CB.scores (TXT.clean_chars full_text.data)).experian
          (CB.scores (TXT.clean_chars full_text.data)).equifax) →
      PA.parse_report full_text =
        .ok (CB.detect_bureau_with_scores (TXT.clean_chars full_text.data)).1) := by
  constructor
  · intro h
    constructor
    · simp only [PA.parse_report]
      rw [detect_snd, if_pos h]
    · exact containsSub_of_suffix _ _
  · intro h
    simp only [PA.parse_report]
    rw [detect_snd, if_neg (by omega)]
    cases hb : (CB.detect_bureau_with_scores (TXT.clean_chars full_text.data)).1 <;>
      simp [hb]

theorem c1_parse_report_gate_witness :
    PA.parse_report "" =
      .error (String.mk (PA.unknown_msg (TXT.clean_chars "".data))) ∧
    PA.parse_report "satisfactory accounts" = .ok .transunion := by
  constructor
  · exact ((c1_parse_report_gate "").1 (by decide)).1
  · rw [(c1_parse_report_gate "satisfactory accounts").2 (by decide)]
    exact congrArg Except.ok (by decide)

/-- Counterexample to C3 as stated: on a status text containing both
keywords, the TransUnion status mapper returns transferred, not sold,
because its transferred test precedes its sold test. -/
theorem c3_counterexample :
    TU.map_status "transferred sold".data [] = Status.transferred ∧
    Status.transferred ≠ Status.sold := ⟨by decide, by decide⟩

/-- C3 amended: when both keywords appear and no earlier rule of the
mapper fires, the Equifax status mapper prefers sold, while the
TransUnion and Experian mappers return transferred: the hard-coded
sold-over-transferred tie-break exists only in the Equifax extractor. -/
theorem c3_status_sold_tiebreak (st ps : List Char) (narr rem : List (List Char)) :
    (containsSub "transfer".data
        (pyLower st ++ ' ' :: pyLower (joinSpace narr)) = true →
      containsSub "sold".data (pyLower st ++ ' ' :: pyLower (joinSpace narr)) = true →
      containsSub "pays as agreed".data
        (pyLower st ++ ' ' :: pyLower (joinSpace narr)) = false →
      (containsSub "open".data (pyLower st) &&
        containsSub "never late".data
          (pyLower st ++ ' ' :: pyLower (joinSpace narr))) = false →
      (containsSub "paid".data (pyLower st ++ ' ' :: pyLower (joinSpace narr)) &&
        containsSub "closed".data
          (pyLower st ++ ' ' :: pyLower (joinSpace narr))) = false →
      EQX.map_status (some st) narr = Status.sold) ∧
    (containsSub "transferred".data
        (pyLower ps ++ ' ' :: pyLower (joinSpace rem)) = true →
      (containsSub "current account".data
          (pyLower ps ++ ' ' :: pyLower (joinSpace rem)) ||
        boundarySearch "current".data (pyLower ps)) = false →
      (containsSub "paid".data (pyLower ps ++ ' ' :: pyLower (joinSpace rem)) &&
        containsSub "closed".data
          (pyLower ps ++ ' ' :: pyLower (joinSpace rem))) = false →
      TU.map_status ps rem = Status.transferred) ∧
    (containsSub "transferred".data (pyLower st) = true →
      (containsSub "open".data (pyLower st) &&
        containsSub "never late".data (pyLower st)) = false →
      (containsSub "paid".data (pyLower st) &&
        containsSub "closed".data (pyLower st)) = false →
      EXP.map_status (some st) = Status.transferred) := by
  refine ⟨?_, ?_, ?_⟩
  · intro h1 h2 h3 h4 h5
    simp [EQX.map_status, h1, h2, h3, h4, h5]
  · intro h1 h2 h3
    simp [TU.map_status, h1, h2, h3]
  · intro h1 h2 h3
    simp [EXP.map_status, h1, h2, h3]

theorem c3_status_sold_tiebreak_witness :
    EQX.map_status (some "transferred sold".data) [] = Status.sold ∧
    TU.map_status "transferred sold".data [] = Status.transferred ∧
    EXP.map_status (some "transferred sold".data) = Status.transferred := by
  have h := c3_status_sold_tiebreak "transferred sold".data "transferred sold".data [] []
  exact ⟨h.1 (by decide) (by decide) (by decide) (by decide) (by decide),
    h.2.1 (by decide) (by decide) (by decide),
    h.2.2 (by decide) (by decide) (by decide)⟩

/-- C4: in the TransUnion, Experian and Equifax account builders, a
parsed credit limit outside [100, 10000000] is discarded to null and an
in-range one is stored unchanged; when the limit is null and a
high-balance (TransUnion, Experian) or high-credit (Equifax) figure is
present, that figure becomes the limit exactly when it passes the limit
guardrail itself; a limit of 5 normalizes to null and a limit of 15000
passes unchanged. -/
theorem c4_limit_guardrail (x h : ℚ) (r : TU.RawTU) (q : EXP.RawEXP)
    (e : EQX.RawEQX) :
    (TU.clamp_limit (some x) = if x < 100 ∨ 10000000 < x then none else some x) ∧
    (EXP.clamp_limit (some x) = if x < 100 ∨ 10000000 < x then none else some x) ∧
    (r.credit_limit = some x → 100 ≤ x → x ≤ 10000000 →
      (TU.build_account r).credit_limit = some x) ∧
    (r.credit_limit = some x → (x < 100 ∨ 10000000 < x) → r.high_balance = none →
      (TU.build_account r).credit_limit = none) ∧
    (TU.clamp_limit r.credit_limit = none → r.high_balance = some h → 100 ≤ h →
      h ≤ 10000000 → (TU.build_account r).credit_limit = some h) ∧
    (TU.clamp_limit r.credit_limit = none → r.high_balance = some h →
      (h < 100 ∨ 10000000 < h) → (TU.build_account r).credit_limit = none) ∧
    (q.credit_limit = some x → 100 ≤ x → x ≤ 10000000 →
      (EXP.build_account q).credit_limit = some x) ∧
    (q.credit_limit = some x → (x < 100 ∨ 10000000 < x) → q.highest_balance = none →
      (EXP.build_account q).credit_limit = none) ∧
    (EXP.clamp_limit q.credit_limit = none → q.highest_balance = some h → 100 ≤ h →
      h ≤ 10000000 → (EXP.build_account q).credit_limit = some h) ∧
    (EXP.clamp_limit q.credit_limit = none → q.highest_balance = some h →
      (h < 100 ∨ 10000000 < h) → (EXP.build_account q).credit_limit = none) ∧
    TU.clamp_limit (some 5) = none ∧
    TU.clamp_limit (some 15000) = some 15000 ∧
    (EQX.clamp_limit (some x) = if x < 100 ∨ 10000000 < x then none else some x) ∧
    (e.credit_limit = some x → 100 ≤ x → x ≤ 10000000 →
      (EQX.build_account e).credit_limit = some x) ∧
    (e.credit_limit = some x → (x < 100 ∨ 10000000 < x) → e.high_credit = none →
      (EQX.build_account e).credit_limit = none) ∧
    (EQX.clamp_limit e.credit_limit = none → e.high_credit = some h → 100 ≤ h →
      h ≤ 10000000 → (EQX.build_account e).credit_limit = some h) ∧
    (EQX.clamp_limit e.credit_limit = none → e.high_credit = some h →
      (h < 100 ∨ 10000000 < h) → (EQX.build_account e).credit_limit = none) := by
  refine ⟨rfl, rfl, ?_, ?_, ?_, ?_, ?_, ?_, ?_, ?_, by norm_num [TU.clamp_limit],
    by norm_num [TU.clamp_limit], rfl, ?_, ?_, ?_, ?_⟩
  · intro h1 h2 h3
    have hc1 : ¬ x < 100 := not_lt.mpr h2
    have hc2 : ¬ 10000000 < x := not_lt.mpr h3
    simp [TU.build_account, TU.clamp_limit, h1, hc1, hc2]
  · intro h1 h2 h3
    simp [TU.build_account, TU.clamp_limit, TU.clamp_nonneg, h1, h2, h3]
  · intro h1 h2 h3 h4
    have hmax : max (0 : ℚ) h = h := max_eq_right (by linarith)
    have hc1 : ¬ h < 100 := not_lt.mpr h3
    have hc2 : ¬ 10000000 < h := not_lt.mpr h4
    simp only [TU.build_account, h1, h2, TU.clamp_nonneg, hmax]
    simp [TU.clamp_limit, hc1, hc2]
  · intro h1 h2 h3
    simp only [TU.build_account, h1, h2, TU.clamp_nonneg]
    rcases h3 with h3 | h3
    · have hlt : max (0 : ℚ) h < 100 := max_lt (by norm_num) h3
      simp [TU.clamp_limit, hlt]
    · have hgt : (10000000 : ℚ) < max 0 h := lt_of_lt_of_le h3 (le_max_right _ _)
      simp [TU.clamp_limit, hgt]
  · intro h1 h2 h3
    have hc1 : ¬ x < 100 := not_lt.mpr h2
    have hc2 : ¬ 10000000 < x := not_lt.mpr h3
    simp [EXP.build_account, EXP.clamp_limit, h1, hc1, hc2]
  · intro h1 h2 h3
    simp [EXP.build_account, EXP.clamp_limit, EXP.clamp_nonneg, h1, h2, h3]
  · intro h1 h2 h3 h4
    have hmax : max (0 : ℚ) h = h := max_eq_right (by linarith)
    have hc1 : ¬ h < 100 := not_lt.mpr h3
    have hc2 : ¬ 10000000 < h := not_lt.mpr h4
    simp only [EXP.build_account, h1, h2, EXP.clamp_nonneg, hmax]
    simp [EXP.clamp_limit, hc1, hc2]
  · intro h1 h2 h3
    simp only [EXP.build_account, h1, h2, EXP.clamp_nonneg]
    rcases h3 with h3 | h3
    · have hlt : max (0 : ℚ) h < 100 := max_lt (by norm_num) h3
      simp [EXP.clamp_limit, hlt]
    · have hgt : (10000000 : ℚ) < max 0 h := lt_of_lt_of_le h3 (le_max_right _ _)
      simp [EXP.clamp_limit, hgt]
  · intro h1 h2 h3
    have hc1 : ¬ x < 100 := not_lt.mpr h2
    have hc2 : ¬ 10000000 < x := not_lt.mpr h3
    simp [EQX.build_account, EQX.clamp_limit, h1, hc1, hc2]
  · intro h1 h2 h3
    simp [EQX.build_account, EQX.clamp_limit, EQX.clamp_nonneg, h1, h2, h3]
  · intro h1 h2 h3 h4
    have hmax : max (0 : ℚ) h = h := max_eq_right (by linarith)
    have hc1 : ¬ h < 100 := not_lt.mpr h3
    have hc2 : ¬ 10000000 < h := not_lt.mpr h4
    simp only [EQX.build_account, h1, h2, EQX.clamp_nonneg, hmax]
    simp [EQX.clamp_limit, hc1, hc2]
  · intro h1 h2 h3
    simp only [EQX.build_account, h1, h2, EQX.clamp_nonneg]
    rcases h3 with h3 | h3
    · have hlt : max (0 : ℚ) h < 100 := max_lt (by norm_num) h3
      simp [EQX.clamp_limit, hlt]
    · have hgt : (10000000 : ℚ) < max 0 h := lt_of_lt_of_le h3 (le_max_right _ _)
      simp [EQX.clamp_limit, hgt]

theorem c4_limit_guardrail_witness :
    (TU.build_account rawTU5).credit_limit = none ∧
    (TU.build_account rawTUsub).credit_limit = some 2000 ∧
    (EXP.build_account rawEXP15k).credit_limit = some 15000 ∧
    (EQX.build_account rawEQX5).credit_limit = none ∧
    (EQX.build_account rawEQXsub).credit_limit = some 2000 := by
  refine ⟨(c4_limit_guardrail 5 0 rawTU5 rawEXP0 rawEQX0).2.2.2.1 rfl
      (Or.inl (by norm_num)) rfl,
    (c4_limit_guardrail 0 2000 rawTUsub rawEXP0 rawEQX0).2.2.2.2.1 rfl rfl
      (by norm_num) (by norm_num),
    (c4_limit_guardrail 15000 0 rawTU0 rawEXP15k rawEQX0).2.2.2.2.2.2.1 rfl
      (by norm_num) (by norm_num),
    (c4_limit_guardrail 5 0 rawTU0 rawEXP0
        rawEQX5).2.2.2.2.2.2.2.2.2.2.2.2.2.2.1 rfl (Or.inl (by norm_num)) rfl,
    (c4_limit_guardrail 0 2000 rawTU0 rawEXP0
        rawEQXsub).2.2.2.2.2.2.2.2.2.2.2.2.2.2.2.1 rfl rfl (by norm_num)
      (by norm_num)⟩

theorem kind_mem_all (k : Kind) :
    k ∈ [Kind.revolving, .mortgage, .installment, .open', .lease, .student, .other] := by
  cases k <;> simp

theorem status_mem_all (s : Status) :
    s ∈ [Status.open', .closed, .transferred, .sold, .paid, .collection, .chargeoff,
      .delinquent, .current] := by
  cases s <;> simp

/-- C6: every Account built by any of the three extractors carries a
kind from the seven-value enumeration and a status from the nine-value
enumeration, both produced by the keyword mappers; account-type text
matching no keyword maps to the default other, and status text matching
no keyword maps to the default open. -/
theorem c6_enum_and_defaults (rt : TU.RawTU) (re : EXP.RawEXP) (rq : EQX.RawEQX)
    (ka : List Char) (ko : Option (List Char)) (ps : List Char)
    (rem : List (List Char)) (so : Option (List Char)) (nar : List (List Char)) :
    ((TU.build_account rt).kind ∈
      [Kind.revolving, .mortgage, .installment, .open', .lease, .student, .other]) ∧
    ((EXP.build_account re).kind ∈
      [Kind.revolving, .mortgage, .installment, .open', .lease, .student, .other]) ∧
    ((EQX.build_account rq).kind ∈
      [Kind.revolving, .mortgage, .installment, .open', .lease, .student, .other]) ∧
    ((TU.build_account rt).status ∈
      [Status.open', .closed, .transferred, .sold, .paid, .collection, .chargeoff,
        .delinquent, .current]) ∧
    ((EXP.build_account re).status ∈
      [Status.open', .closed, .transferred, .sold, .paid, .collection, .chargeoff,
        .delinquent, .current]) ∧
    ((EQX.build_account rq).status ∈
      [Status.open', .closed, .transferred, .sold, .paid, .collection, .chargeoff,
        .delinquent, .current]) ∧
    ((TU.build_account rt).kind =
      TU.map_kind ((rt.account_type.getD "").data) (rt.loan_type.map String.data)) ∧
    ((TU.build_account rt).status =
      TU.map_status ((rt.pay_status.getD "").data) (rt.remarks.map String.data)) ∧
    ((EXP.build_account re).kind = EXP.map_kind (re.account_type.map String.data)) ∧
    ((EXP.build_account re).status = EXP.map_status (re.status.map String.data)) ∧
    ((EQX.build_account rq).kind = EQX.map_kind (rq.loan_type.map String.data)) ∧
    ((EQX.build_account rq).status =
      EQX.map_status (rq.status.map String.data) (rq.narratives.map String.data)) ∧
    (containsSub "revolving".data (pyLower ka) = false →
      containsSub "revolving".data (pyLower (ko.getD [])) = false →
      containsSub "mortgage".data (pyLower ka) = false →
      containsSub "mortgage".data (pyLower (ko.getD [])) = false →
      containsSub "installment".data (pyLower ka) = false →
      containsSub "installment".data (pyLower (ko.getD [])) = false →
      containsSub "lease".data (pyLower ka) = false →
      containsSub "lease".data (pyLower (ko.getD [])) = false →
      containsSub "student".data (pyLower ka) = false →
      containsSub "student".data (pyLower (ko.getD [])) = false →
      leadsWith "open".data (pyLower ka) = false →
      containsSub "open account".data (pyLower ka) = false →
      TU.map_kind ka ko = Kind.other) ∧
    (containsSub "credit card".data (pyLower (so.getD [])) = false →
      containsSub "mortgage".data (pyLower (so.getD [])) = false →
      containsSub "conventional".data (pyLower (so.getD [])) = false →
      containsSub "education".data (pyLower (so.getD [])) = false →
      containsSub "student".data (pyLower (so.getD [])) = false →
      containsSub "lease".data (pyLower (so.getD [])) = false →
      containsSub "auto".data (pyLower (so.getD [])) = false →
      containsSub "installment".data (pyLower (so.getD [])) = false →
      containsSub "personal loan".data (pyLower (so.getD [])) = false →
      containsSub "loan".data (pyLower (so.getD [])) = false →
      leadsWith "open".data (pyLower (so.getD [])) = false →
      EXP.map_kind so = Kind.other) ∧
    (containsSub "revolving".data (pyLower (so.getD [])) = false →
      containsSub "credit card".data (pyLower (so.getD [])) = false →
      containsSub "mortgage".data (pyLower (so.getD [])) = false →
      containsSub "home".data (pyLower (so.getD [])) = false →
      containsSub "student".data (pyLower (so.getD [])) = false →
      containsSub "education".data (pyLower (so.getD [])) = false →
      containsSub "lease".data (pyLower (so.getD [])) = false →
      containsSub "installment".data (pyLower (so.getD [])) = false →
      containsSub "auto".data (pyLower (so.getD [])) = false →
      containsSub "loan".data (pyLower (so.getD [])) = false →
      leadsWith "open".data (pyLower (so.getD [])) = false →
      EQX.map_kind so = Kind.other) ∧
    (containsSub "current account".data
        (pyLower ps ++ ' ' :: pyLower (joinSpace rem)) = false →
      boundarySearch "current".data (pyLower ps) = false →
      containsSub "closed".data (pyLower ps ++ ' ' :: pyLower (joinSpace rem)) = false →
      containsSub "transferred".data
        (pyLower ps ++ ' ' :: pyLower (joinSpace rem)) = false →
      boundarySearch "sold".data (pyLower ps ++ ' ' :: pyLower (joinSpace rem)) = false →
      containsSub "collection".data
        (pyLower ps ++ ' ' :: pyLower (joinSpace rem)) = false →
      containsSub "charge-off".data
        (pyLower ps ++ ' ' :: pyLower (joinSpace rem)) = false →
      containsSub "chargeoff".data
        (pyLower ps ++ ' ' :: pyLower (joinSpace rem)) = false →
      containsSub "charge off".data
        (pyLower ps ++ ' ' :: pyLower (joinSpace rem)) = false →
      containsSub "30".data (pyLower ps ++ ' ' :: pyLower (joinSpace rem)) = false →
      containsSub "60".data (pyLower ps ++ ' ' :: pyLower (joinSpace rem)) = false →
      containsSub "90".data (pyLower ps ++ ' ' :: pyLower (joinSpace rem)) = false →
      containsSub "120".data (pyLower ps ++ ' ' :: pyLower (joinSpace rem)) = false →
      containsSub "late".data (pyLower ps ++ ' ' :: pyLower (joinSpace rem)) = false →
      containsSub "delinquent".data
        (pyLower ps ++ ' ' :: pyLower (joinSpace rem)) = false →
      TU.map_status ps rem = Status.open') ∧
    (containsSub "never late".data (pyLower (so.getD [])) = false →
      containsSub "closed".data (pyLower (so.getD [])) = false →
      containsSub "paid".data (pyLower (so.getD [])) = false →
      containsSub "transferred".data (pyLower (so.getD [])) = false →
      containsSub "sold".data (pyLower (so.getD [])) = false →
      containsSub "collection".data (pyLower (so.getD [])) = false →
      containsSub "charge-off".data (pyLower (so.getD [])) = false →
      containsSub "charge off".data (pyLower (so.getD [])) = false →
      containsSub "chargeoff".data (pyLower (so.getD [])) = false →
      containsSub "30".data (pyLower (so.getD [])) = false →
      containsSub "60".data (pyLower (so.getD [])) = false →
      containsSub "90".data (pyLower (so.getD [])) = false →
      containsSub "120".data (pyLower (so.getD [])) = false →
      containsSub "late".data (pyLower (so.getD [])) = false →
      containsSub "delinquent".data (pyLower (so.getD [])) = false →
      EXP.map_status so = Status.open') ∧
    (containsSub "pays as agreed".data
        (pyLower (so.getD []) ++ ' ' :: pyLower (joinSpace nar)) = false →
      containsSub "never late".data
        (pyLower (so.getD []) ++ ' ' :: pyLower (joinSpace nar)) = false →
      containsSub "closed".data
        (pyLower (so.getD []) ++ ' ' :: pyLower (joinSpace nar)) = false →
      containsSub "paid".data
        (pyLower (so.getD []) ++ ' ' :: pyLower (joinSpace nar)) = false →
      containsSub "transfer".data
        (pyLower (so.getD []) ++ ' ' :: pyLower (joinSpace nar)) = false →
      containsSub "sold".data
        (pyLower (so.getD []) ++ ' ' :: pyLower (joinSpace nar)) = false →
      containsSub "collection".data
        (pyLower (so.getD []) ++ ' ' :: pyLower (joinSpace nar)) = false →
      containsSub "charge-off".data
        (pyLower (so.getD []) ++ ' ' :: pyLower (joinSpace nar)) = false →
      containsSub "charge off".data
        (pyLower (so.getD []) ++ ' ' :: pyLower (joinSpace nar)) = false →
      containsSub "chargeoff".data
        (pyLower (so.getD []) ++ ' ' :: pyLower (joinSpace nar)) = false →
      containsSub "30".data
        (pyLower (so.getD []) ++ ' ' :: pyLower (joinSpace nar)) = false →
      containsSub "60".data
        (pyLower (so.getD []) ++ ' ' :: pyLower (joinSpace nar)) = false →
      containsSub "90".data
        (pyLower (so.getD []) ++ ' ' :: pyLower (joinSpace nar)) = false →
      containsSub "120".data
        (pyLower (so.getD []) ++ ' ' :: pyLower (joinSpace nar)) = false →
      containsSub "late".data
        (pyLower (so.getD []) ++ ' ' :: pyLower (joinSpace nar)) = false →
      containsSub "delinquent".data
        (pyLower (so.getD []) ++ ' ' :: pyLower (joinSpace nar)) = false →
      EQX.map_status so nar = Status.open') := by
  refine ⟨kind_mem_all _, kind_mem_all _, kind_mem_all _, status_mem_all _,
    status_mem_all _, status_mem_all _, rfl, rfl, rfl, rfl, rfl, rfl,
    ?_, ?_, ?_, ?_, ?_, ?_⟩
  · intro h1 h2 h3 h4 h5 h6 h7 h8 h9 h10 h11 h12
    simp [TU.map_kind, h1, h2, h3, h4, h5, h6, h7, h8, h9, h10, h11, h12]
  · intro h1 h2 h3 h4 h5 h6 h7 h8 h9 h10 h11
    simp [EXP.map_kind, h1, h2, h3, h4, h5, h6, h7, h8, h9, h10, h11]
  · intro h1 h2 h3 h4 h5 h6 h7 h8 h9 h10 h11
    simp [EQX.map_kind, h1, h2, h3, h4, h5, h6, h7, h8, h9, h10, h11]
  · intro h1 h2 h3 h4 h5 h6 h7 h8 h9 h10 h11 h12 h13 h14 h15
    simp [TU.map_status, h1, h2, h3, h4, h5, h6, h7, h8, h9, h10, h11, h12, h13,
      h14, h15]
  · intro h1 h2 h3 h4 h5 h6 h7 h8 h9 h10 h11 h12 h13 h14 h15
    simp [EXP.map_status, h1, h2, h3, h4, h5, h6, h7, h8, h9, h10, h11, h12, h13,
      h14, h15]
  · intro h1 h2 h3 h4 h5 h6 h7 h8 h9 h10 h11 h12 h13 h14 h15 h16
    simp [EQX.map_status, h1, h2, h3, h4, h5, h6, h7, h8, h9, h10, h11, h12, h13,
      h14, h15, h16]

theorem c6_enum_and_defaults_witness :
    TU.map_kind "misc".data none = Kind.other ∧
    EXP.map_kind none = Kind.other ∧
    EQX.map_kind none = Kind.other ∧
    TU.map_status "zz".data [] = Status.open' ∧
    EXP.map_status none = Status.open' ∧
    EQX.map_status none [] = Status.open' := by
  have h := c6_enum_and_defaults rawTU0 rawEXP0 rawEQX0 "misc".data none "zz".data
    [] none []
  refine ⟨h.2.2.2.2.2.2.2.2.2.2.2.2.1 (by decide) (by decide) (by decide) (by decide)
      (by decide) (by decide) (by decide) (by decide) (by decide) (by decide)
      (by decide) (by decide),
    h.2.2.2.2.2.2.2.2.2.2.2.2.2.1 (by decide) (by decide) (by decide) (by decide)
      (by decide) (by decide) (by decide) (by decide) (by decide) (by decide)
      (by decide),
    h.2.2.2.2.2.2.2.2.2.2.2.2.2.2.1 (by decide) (by decide) (by decide) (by decide)
      (by decide) (by decide) (by decide) (by decide) (by decide) (by decide)
      (by decide),
    h.2.2.2.2.2.2.2.2.2.2.2.2.2.2.2.1 (by decide) (by decide) (by decide) (by decide)
      (by decide) (by decide) (by decide) (by decide) (by decide) (by decide)
      (by decide) (by decide) (by decide) (by decide) (by decide),
    h.2.2.2.2.2.2.2.2.2.2.2.2.2.2.2.2.1 (by decide) (by decide) (by decide)
      (by decide) (by decide) (by decide) (by decide) (by decide) (by decide)
      (by decide) (by decide) (by decide) (by decide) (by decide) (by decide),
    h.2.2.2.2.2.2.2.2.2.2.2.2.2.2.2.2.2 (by decide) (by decide) (by decide)
      (by decide) (by decide) (by decide) (by decide) (by decide) (by decide)
      (by decide) (by decide) (by decide) (by decide) (by decide) (by decide)
      (by decide)⟩

theorem mem_insertMonthDesc (a x : HistRow) (l : List HistRow) :
    a ∈ NORM.insertMonthDesc x l ↔ a = x ∨ a ∈ l := by
  induction l with
  | nil => simp [NORM.insertMonthDesc]
  | cons y ys ih =>
    simp only [NORM.insertMonthDesc]
    split
    · simp only [List.mem_cons, ih]
      try tauto
    · simp only [List.mem_cons]
      try tauto

theorem mem_sortMonthDesc_aux (a : HistRow) (l acc : List HistRow) :
    a ∈ l.foldl (fun acc x => NORM.insertMonthDesc x acc) acc ↔ a ∈ acc ∨ a ∈ l := by
  induction l generalizing acc with
  | nil => simp
  | cons x xs ih =>
    simp only [List.foldl_cons]
    rw [ih, mem_insertMonthDesc]
    simp only [List.mem_cons]
    tauto

theorem mem_sortMonthDesc (a : HistRow) (l : List HistRow) :
    a ∈ NORM.sortMonthDesc l ↔ a ∈ l := by
  rw [NORM.sortMonthDesc, mem_sortMonthDesc_aux]
  simp

theorem pairwise_insertMonthDesc (x : HistRow) (l : List HistRow)
    (h : l.Pairwise (fun p q => q.month ≤ p.month)) :
    (NORM.insertMonthDesc x l).Pairwise (fun p q => q.month ≤ p.month) := by
  induction l with
  | nil => simp [NORM.insertMonthDesc]
  | cons y ys ih =>
    rw [List.pairwise_cons] at h
    obtain ⟨hy, hys⟩ := h
    simp only [NORM.insertMonthDesc]
    split
    · rename_i hxy
      rw [List.pairwise_cons]
      refine ⟨?_, ih hys⟩
      intro z hz
      rcases (mem_insertMonthDesc z x ys).mp hz with rfl | hz
      · exact hxy
      · exact hy z hz
    · rename_i hxy
      rw [List.pairwise_cons]
      refine ⟨?_, List.pairwise_cons.mpr ⟨hy, hys⟩⟩
      intro z hz
      rcases List.mem_cons.mp hz with rfl | hz
      · exact le_of_not_le hxy
      · exact le_trans (hy z hz) (le_of_not_le hxy)

theorem pairwise_sortMonthDesc_aux (l acc : List HistRow)
    (h : acc.Pairwise (fun p q => q.month ≤ p.month)) :
    (l.foldl (fun acc x => NORM.insertMonthDesc x acc) acc).Pairwise
      (fun p q => q.month ≤ p.month) := by
  induction l generalizing acc with
  | nil => exact h
  | cons x xs ih =>
    simp only [List.foldl_cons]
    exact ih _ (pairwise_insertMonthDesc x acc h)

theorem pairwise_sortMonthDesc (l : List HistRow) :
    (NORM.sortMonthDesc l).Pairwise (fun p q => q.month ≤ p.month) :=
  pairwise_sortMonthDesc_aux l [] (by simp)

theorem findSome_balance_sorted (l : List HistRow) (b : ℚ)
    (hp : l.Pairwise (fun p q => q.month ≤ p.month))
    (h : l.findSome? (fun r => r.balance) = some b) :
    ∃ row ∈ l, row.balance = some b ∧
      ∀ r2 ∈ l, r2.balance.isSome → r2.month ≤ row.month := by
  induction l with
  | nil => simp at h
  | cons x xs ih =>
    rw [List.pairwise_cons] at hp
    obtain ⟨hx, hxs⟩ := hp
    rw [List.findSome?_cons] at h
    cases hb : x.balance with
    | some v =>
      rw [hb] at h
      refine ⟨x, List.mem_cons_self x xs, ?_, ?_⟩
      · rw [hb]
        exact h
      · intro r2 hr2 _
        rcases List.mem_cons.mp hr2 with rfl | hr2
        · exact le_refl _
        · exact hx r2 hr2
    | none =>
      rw [hb] at h
      obtain ⟨row, hrow, hbal, hmax⟩ := ih hxs h
      refine ⟨row, List.mem_cons_of_mem x hrow, hbal, ?_⟩
      intro r2 hr2 hsome
      rcases List.mem_cons.mp hr2 with rfl | hr2
      · rw [hb] at hsome
        simp at hsome
      · exact hmax r2 hr2 hsome

/-- C5: the summary aggregator restricts to open-or-current revolving
accounts with a known positive credit limit; utilization is total
balance over total limit rounded to one decimal when the total limit is
positive and null otherwise; a missing account balance falls back to
the first non-null balance of the payment-history rows in
month-descending order (a most recent non-null row), and to zero when
no such row exists; a report with one open revolving account of limit
1000 and balance 250 yields utilization exactly 0.2, and one with no
qualifying account yields null. -/
theorem c5_summary_aggregation (r : CreditReport) (a : Account) (b : ℚ) :
    (a ∈ NORM.open_revolving r ↔
      a ∈ r.accounts ∧ a.kind = .revolving ∧
        (a.status = .open' ∨ a.status = .current) ∧
        ∃ l, a.credit_limit = some l ∧ 0 < l) ∧
    ((NORM.compute_summary r).utilization =
      if 0 < ((NORM.open_revolving r).map (fun a => a.credit_limit.getD 0)).sum then
        some (NORM.py_round1
          (((NORM.open_revolving r).map NORM.current_or_latest_balance).sum /
            ((NORM.open_revolving r).map (fun a => a.credit_limit.getD 0)).sum))
      else none) ∧
    (NORM.current_or_latest_balance a =
      match a.balance with
      | some v => v
      | none => (NORM.latest_history_balance a).getD 0) ∧
    (a.payment_history = [] → NORM.latest_history_balance a = none) ∧
    (NORM.latest_history_balance a = some b →
      ∃ row ∈ a.payment_history, row.balance = some b ∧
        ∀ r2 ∈ a.payment_history, r2.balance.isSome → r2.month ≤ row.month) ∧
    (NORM.compute_summary exReport1).utilization = some (1 / 5) ∧
    (NORM.compute_summary exReport0).utilization = none := by
  refine ⟨?_, rfl, rfl, ?_, ?_, ?_, ?_⟩
  · simp only [NORM.open_revolving, List.mem_filter, Bool.and_eq_true, Bool.or_eq_true,
      beq_iff_eq, NORM.is_open]
    cases hcl : a.credit_limit <;> simp [hcl, decide_eq_true_eq, and_assoc]
  · intro h
    simp [NORM.latest_history_balance, h]
  · intro h
    cases hph : a.payment_history with
    | nil =>
      simp only [NORM.latest_history_balance, hph] at h
      simp at h
    | cons x xs =>
      simp only [NORM.latest_history_balance, hph] at h
      obtain ⟨row, hrow, hbal, hmax⟩ :=
        findSome_balance_sorted _ b (pairwise_sortMonthDesc _) h
      rw [mem_sortMonthDesc] at hrow
      refine ⟨row, hrow, hbal, ?_⟩
      intro r2 hr2 hsome
      exact hmax r2 ((mem_sortMonthDesc r2 _).mpr hr2) hsome
  · have e1 : NORM.open_revolving exReport1 = [exAccount1] := by rfl
    have hfloor : ⌊(5 : ℚ) / 2⌋ = 2 := by
      rw [Int.floor_eq_iff]
      constructor <;> norm_num
    have hq : (10 : ℚ) * (250 / 1000) = 5 / 2 := by norm_num
    have hround : NORM.round_half_even ((10 : ℚ) * (250 / 1000)) = 2 := by
      rw [hq, NORM.round_half_even, hfloor]
      norm_num
    have hut : (NORM.compute_summary exReport1).utilization =
        if (0 : ℚ) < 1000 then some (NORM.py_round1 (250 / 1000)) else none := by
      simp only [NORM.compute_summary, e1, List.map_cons, List.map_nil, List.sum_cons,
        List.sum_nil]
      norm_num [exAccount1, NORM.current_or_latest_balance]
    rw [hut, if_pos (by norm_num), NORM.py_round1, hround]
    norm_num
  · rfl

theorem c5_summary_aggregation_witness :
    exAccount1 ∈ NORM.open_revolving exReport1 ∧
    NORM.latest_history_balance exAccount1 = none ∧
    (NORM.compute_summary exReport1).utilization = some (1 / 5) := by
  have h := c5_summary_aggregation exReport1 exAccount1 0
  refine ⟨h.1.mpr ⟨by simp [exReport1], by rfl, Or.inl (by rfl),
    ⟨1000, rfl, by norm_num⟩⟩, h.2.2.2.1 rfl, h.2.2.2.2.2.1⟩

/-- C7: parse_amount is total and behaves as specified: a None input
maps to null, a numeric input passes through unchanged, a string whose
stripped lowercase form is a configured none token yields null, a
string with no numeric token after removing currency symbols and
thousands separators yields null, and otherwise the last numeric token
of the remaining string is parsed and returned. -/
theorem c7_parse_amount_cases (x : ℚ) (s : String) :
    NORM.parse_amount .pynone = none ∧
    NORM.parse_amount (.pynum x) = some x ∧
    (pyLower (pyStrip s.data) ∈ NORM.NONE_TOKENS →
      NORM.parse_amount (.pystr s) = none) ∧
    (pyLower (pyStrip s.data) ∉ NORM.NONE_TOKENS →
      NORM.scanTokens (NORM.stripMoney (pyStrip s.data)) = [] →
      NORM.parse_amount (.pystr s) = none) ∧
    (∀ t : NORM.NumTok, pyLower (pyStrip s.data) ∉ NORM.NONE_TOKENS →
      (NORM.scanTokens (NORM.stripMoney (pyStrip s.data))).getLast? = some t →
      NORM.parse_amount (.pystr s) = some (NORM.tokVal t)) := by
  refine ⟨rfl, rfl, ?_, ?_, ?_⟩
  · intro h
    simp [NORM.parse_amount, h]
  · intro h h2
    simp [NORM.parse_amount, h, h2]
  · intro t h h2
    simp [NORM.parse_amount, h, h2]

theorem c7_parse_amount_cases_witness :
    NORM.parse_amount (.pystr " n/a ") = none ∧
    NORM.parse_amount (.pystr "no figures") = none ∧
    NORM.parse_amount (.pystr "$1,234.50 pd") = some (2469 / 2) := by
  refine ⟨(c7_parse_amount_cases 0 " n/a ").2.2.1 (by decide),
    (c7_parse_amount_cases 0 "no figures").2.2.2.1 (by decide)
      (by simp [NORM.scanTokens, NORM.fracScan, NORM.stripMoney, pyStrip, pyLower,
        isPyWs, NORM.headDigit]), ?_⟩
  have h := (c7_parse_amount_cases 0 "$1,234.50 pd").2.2.2.2
    ⟨false, "1234".data, "50".data⟩ (by decide)
    (by simp [NORM.scanTokens, NORM.fracScan, NORM.stripMoney, pyStrip, pyLower,
      isPyWs, NORM.headDigit])
  rw [h]
  have h1 : NORM.digitsToNat "1234".data = 1234 := by rfl
  have h2 : NORM.digitsToNat "50".data = 50 := by rfl
  have h3 : ("50".data).length = 2 := by rfl
  simp only [NORM.tokVal, h1, h2, h3, Bool.false_eq_true, if_false]
  norm_num

/-! ### Helper lemmas for the parse_amount round trip -/

theorem digitChar_mem_digitList {d : ℕ} (h : d < 10) : digitChar d ∈ digitList := by
  interval_cases d <;> decide

theorem digitChar_toNat {d : ℕ} (h : d < 10) : (digitChar d).toNat - 48 = d := by
  interval_cases d <;> decide

theorem dlDigit : ∀ c ∈ digitList, c.isDigit = true := by decide

theorem dlLower : ∀ c ∈ digitList, c.toLower = c := by decide

theorem natChars_subset (n : ℕ) : ∀ c ∈ natChars n, c ∈ digitList := by
  intro c hc
  simp only [natChars, List.mem_reverse, List.mem_map] at hc
  obtain ⟨d, hd, rfl⟩ := hc
  exact digitChar_mem_digitList (Nat.digits_lt_base (by norm_num) hd)

theorem natCharsZ_subset (n : ℕ) : ∀ c ∈ natCharsZ n, c ∈ digitList := by
  intro c hc
  by_cases h : n = 0
  · rw [natCharsZ, if_pos h] at hc
    simp only [List.mem_singleton] at hc
    rw [hc]
    decide
  · rw [natCharsZ, if_neg h] at hc
    exact natChars_subset n c hc

theorem natCharsZ_ne_nil (n : ℕ) : natCharsZ n ≠ [] := by
  by_cases h : n = 0
  · simp [natCharsZ, h]
  · simp only [natCharsZ, if_neg h, natChars]
    simp [Nat.digits_ne_nil_iff_ne_zero.mpr h]

theorem padFrac_subset (k a : ℕ) : ∀ c ∈ padFrac k a, c ∈ digitList := by
  intro c hc
  simp only [padFrac, List.mem_reverse, List.mem_map] at hc
  obtain ⟨d, hd, rfl⟩ := hc
  rcases List.mem_append.mp hd with h | h
  · exact digitChar_mem_digitList (Nat.digits_lt_base (by norm_num) h)
  · rw [List.eq_of_mem_replicate h]
    decide

theorem digits_length_le {a k : ℕ} (h : a < 10 ^ k) : (Nat.digits 10 a).length ≤ k := by
  by_cases ha : a = 0
  · simp [ha]
  · rw [Nat.digits_len 10 a (by norm_num) ha]
    have := (Nat.lt_pow_iff_log_lt (by norm_num : 1 < 10) ha).mp h
    omega

theorem padFrac_length {k a : ℕ} (h : a < 10 ^ k) : (padFrac k a).length = k := by
  have := digits_length_le h
  simp only [padFrac, List.length_reverse, List.length_map, List.length_append,
    List.length_replicate]
  omega

theorem padFrac_ne_nil {k a : ℕ} (hk : k ≠ 0) (h : a < 10 ^ k) : padFrac k a ≠ [] := by
  intro hcon
  have := padFrac_length h
  rw [hcon] at this
  simp at this
  omega

theorem digitsToNat_rev_digits (ds : List ℕ) (h : ∀ d ∈ ds, d < 10) :
    NORM.digitsToNat ((ds.map digitChar).reverse) = Nat.ofDigits 10 ds := by
  induction ds with
  | nil => rfl
  | cons d ds ih =>
    have hd : d < 10 := h d (List.mem_cons_self d ds)
    have hds : ∀ x ∈ ds, x < 10 := fun x hx => h x (List.mem_cons_of_mem d hx)
    simp only [List.map_cons, List.reverse_cons]
    unfold NORM.digitsToNat
    rw [List.foldl_append]
    have hmain : List.foldl (fun n c => 10 * n + (c.toNat - 48)) 0
        ((ds.map digitChar).reverse) = Nat.ofDigits 10 ds := ih hds
    rw [hmain]
    simp only [List.foldl_cons, List.foldl_nil, Nat.ofDigits_cons, digitChar_toNat hd]
    omega

theorem ofDigits_replicate_zero (n : ℕ) : Nat.ofDigits 10 (List.replicate n 0) = 0 := by
  induction n with
  | zero => rfl
  | succ n ih => simp [List.replicate_succ, Nat.ofDigits_cons, ih]

theorem digitsToNat_natCharsZ (n : ℕ) : NORM.digitsToNat (natCharsZ n) = n := by
  by_cases h : n = 0
  · rw [natCharsZ, if_pos h, h]
    rfl
  · rw [natCharsZ, if_neg h, natChars,
      digitsToNat_rev_digits _ (fun d hd => Nat.digits_lt_base (by norm_num) hd),
      Nat.ofDigits_digits]

theorem digitsToNat_padFrac {k a : ℕ} (_h : a < 10 ^ k) :
    NORM.digitsToNat (padFrac k a) = a := by
  rw [padFrac, digitsToNat_rev_digits]
  · rw [Nat.ofDigits_append, ofDigits_replicate_zero, Nat.ofDigits_digits]
    ring_nf
  · intro d hd
    rcases List.mem_append.mp hd with h2 | h2
    · exact Nat.digits_lt_base (by norm_num) h2
    · rw [List.eq_of_mem_replicate h2]
      norm_num

theorem takeWhile_all {p : Char → Bool} (l : List Char) (h : ∀ c ∈ l, p c = true) :
    l.takeWhile p = l := by
  induction l with
  | nil => rfl
  | cons c t ih =>
    rw [List.takeWhile_cons_of_pos (h c (List.mem_cons_self c t))]
    rw [ih (fun x hx => h x (List.mem_cons_of_mem c hx))]

theorem dropWhile_all {p : Char → Bool} (l : List Char) (h : ∀ c ∈ l, p c = true) :
    l.dropWhile p = [] := by
  induction l with
  | nil => rfl
  | cons c t ih =>
    rw [List.dropWhile_cons_of_pos (h c (List.mem_cons_self c t))]
    exact ih (fun x hx => h x (List.mem_cons_of_mem c hx))

theorem takeWhile_append_all {p : Char → Bool} (l1 l2 : List Char)
    (h : ∀ c ∈ l1, p c = true) :
    (l1 ++ l2).takeWhile p = l1 ++ l2.takeWhile p := by
  induction l1 with
  | nil => simp
  | cons c t ih =>
    rw [List.cons_append, List.takeWhile_cons_of_pos (h c (List.mem_cons_self c t)),
      ih (fun x hx => h x (List.mem_cons_of_mem c hx)), List.cons_append]

theorem dropWhile_append_all {p : Char → Bool} (l1 l2 : List Char)
    (h : ∀ c ∈ l1, p c = true) :
    (l1 ++ l2).dropWhile p = l2.dropWhile p := by
  induction l1 with
  | nil => simp
  | cons c t ih =>
    rw [List.cons_append, List.dropWhile_cons_of_pos (h c (List.mem_cons_self c t)),
      ih (fun x hx => h x (List.mem_cons_of_mem c hx))]

theorem noWs_strip (l : List Char) (h : ∀ c ∈ l, isPyWs c = false) : pyStrip l = l := by
  have h1 : l.dropWhile isPyWs = l := by
    cases l with
    | nil => rfl
    | cons c t =>
      rw [List.dropWhile_cons_of_neg]
      rw [h c (List.mem_cons_self c t)]
      simp
  rw [pyStrip, h1]
  have h2 : l.reverse.dropWhile isPyWs = l.reverse := by
    cases hr : l.reverse with
    | nil => rfl
    | cons c t =>
      rw [List.dropWhile_cons_of_neg]
      have hc : c ∈ l := by
        rw [← List.mem_reverse, hr]
        exact List.mem_cons_self c t
      rw [h c hc]
      simp
  rw [h2, List.reverse_reverse]

theorem noDigitTok : ∀ tok ∈ NORM.NONE_TOKENS, ∀ c ∈ digitList, c ∉ tok := by decide

theorem not_none_token (l : List Char) (c : Char) (hc : c ∈ l) (hd : c ∈ digitList) :
    pyLower l ∉ NORM.NONE_TOKENS := by
  intro hmem
  have hlc : Char.toLower c ∈ pyLower l := List.mem_map_of_mem _ hc
  rw [dlLower c hd] at hlc
  exact noDigitTok (pyLower l) hmem c hd hlc

theorem fracScan_dot (fp : List Char) (hne : fp ≠ [])
    (h : ∀ c ∈ fp, c.isDigit = true) : NORM.fracScan ('.' :: fp) = (fp, []) := by
  simp only [NORM.fracScan]
  rw [takeWhile_all fp h, dropWhile_all fp h]
  simp [hne]

theorem scanTokens_numeral (ip fp tail : List Char) (hne : ip ≠ [])
    (hip : ∀ c ∈ ip, c.isDigit = true)
    (htail : tail = [] ∧ fp = [] ∨
      tail = '.' :: fp ∧ fp ≠ [] ∧ ∀ c ∈ fp, c.isDigit = true) :
    NORM.scanTokens (ip ++ tail) = [⟨false, ip, fp⟩] ∧
    NORM.scanTokens ('-' :: (ip ++ tail)) = [⟨true, ip, fp⟩] := by
  have htw : (ip ++ tail).takeWhile Char.isDigit = ip := by
    rw [takeWhile_append_all _ _ hip]
    rcases htail with ⟨rfl, rfl⟩ | ⟨rfl, hfp, hfpd⟩
    · simp
    · rw [List.takeWhile_cons_of_neg (by decide)]
      simp
  have hdw : (ip ++ tail).dropWhile Char.isDigit = tail := by
    rw [dropWhile_append_all _ _ hip]
    rcases htail with ⟨rfl, rfl⟩ | ⟨rfl, hfp, hfpd⟩
    · rfl
    · rw [List.dropWhile_cons_of_neg (by decide)]
  have hfs : NORM.fracScan tail = (fp, []) := by
    rcases htail with ⟨rfl, rfl⟩ | ⟨rfl, hfp, hfpd⟩
    · rfl
    · exact fracScan_dot fp hfp hfpd
  constructor
  · cases ip with
    | nil => exact absurd rfl hne
    | cons c t =>
      have hcd : c.isDigit = true := hip c (List.mem_cons_self c t)
      rw [List.cons_append] at htw hdw ⊢
      rw [NORM.scanTokens, if_pos hcd, htw, hdw, hfs]
      simp [NORM.scanTokens]
  · cases ip with
    | nil => exact absurd rfl hne
    | cons c t =>
      have hcd : c.isDigit = true := hip c (List.mem_cons_self c t)
      rw [List.cons_append] at htw hdw ⊢
      rw [NORM.scanTokens]
      rw [if_neg (by decide), if_pos]
      · rw [htw, hdw, hfs]
        simp [NORM.scanTokens]
      · simp [NORM.headDigit, hcd]
  
theorem parse_amount_numeral (neg : Bool) (ip fp tail : List Char) (hne : ip ≠ [])
    (hip : ∀ c ∈ ip, c ∈ digitList) (hfp : ∀ c ∈ fp, c ∈ digitList)
    (htail : tail = [] ∧ fp = [] ∨ tail = '.' :: fp ∧ fp ≠ []) :
    NORM.parse_amount (.pystr (String.mk
      ((if neg then ['-'] else []) ++ ip ++ tail))) =
    some (NORM.tokVal ⟨neg, ip, fp⟩) := by
  have hsub : ∀ c ∈ (if neg then ['-'] else []) ++ ip ++ tail,
      c ∈ '-' :: '.' :: digitList := by
    intro c hc
    rcases List.mem_append.mp hc with hc2 | hc2
    · rcases List.mem_append.mp hc2 with hc3 | hc3
      · cases neg <;> simp_all
      · exact List.mem_cons_of_mem _ (List.mem_cons_of_mem _ (hip c hc3))
    · rcases htail with ⟨rfl, rfl⟩ | ⟨rfl, hfpn⟩
      · simp at hc2
      · rcases List.mem_cons.mp hc2 with rfl | hc3
        · simp
        · exact List.mem_cons_of_mem _ (List.mem_cons_of_mem _ (hfp c hc3))
  have hdata : (String.mk ((if neg then ['-'] else []) ++ ip ++ tail)).data =
      (if neg then ['-'] else []) ++ ip ++ tail := rfl
  have hstrip : pyStrip ((if neg then ['-'] else []) ++ ip ++ tail) =
      (if neg then ['-'] else []) ++ ip ++ tail := by
    apply noWs_strip
    intro c hc
    have := hsub c hc
    fin_cases this <;> rfl
  have hdig : ∃ c ∈ (if neg then ['-'] else []) ++ ip ++ tail, c ∈ digitList := by
    cases ip with
    | nil => exact absurd rfl hne
    | cons c t =>
      refine ⟨c, ?_, hip c (List.mem_cons_self c t)⟩
      exact List.mem_append.mpr (Or.inl (List.mem_append.mpr
        (Or.inr (List.mem_cons_self c t))))
  obtain ⟨cd, hcd1, hcd2⟩ := hdig
  have hnt : pyLower ((if neg then ['-'] else []) ++ ip ++ tail) ∉ NORM.NONE_TOKENS :=
    not_none_token _ cd hcd1 hcd2
  have hfilter : ((if neg then ['-'] else []) ++ ip ++ tail).filter
      (fun c => !(c == '$' || c == ',')) =
      (if neg then ['-'] else []) ++ ip ++ tail := by
    rw [List.filter_eq_self]
    intro c hc
    have := hsub c hc
    fin_cases this <;> rfl
  have hip2 : ∀ c ∈ ip, c.isDigit = true := fun c hc => dlDigit c (hip c hc)
  have htail2 : tail = [] ∧ fp = [] ∨
      tail = '.' :: fp ∧ fp ≠ [] ∧ ∀ c ∈ fp, c.isDigit = true := by
    rcases htail with ⟨h1, h2⟩ | ⟨h1, h2⟩
    · exact Or.inl ⟨h1, h2⟩
    · exact Or.inr ⟨h1, h2, fun c hc => dlDigit c (hfp c hc)⟩
  have hscan : NORM.scanTokens ((if neg then ['-'] else []) ++ ip ++ tail) =
      [⟨neg, ip, fp⟩] := by
    obtain ⟨hpos, hneg⟩ := scanTokens_numeral ip fp tail hne hip2 htail2
    cases neg
    · simpa using hpos
    · simp only [if_true, List.append_assoc, List.singleton_append]
      simpa using hneg
  simp only [NORM.parse_amount, hdata]
  rw [hstrip, if_neg hnt]
  simp only [NORM.stripMoney, hfilter, hstrip, hscan]
  rfl

theorem div_add_mod_cast (a : ℕ) (k : ℕ) :
    ((a / 10 ^ k : ℕ) : ℚ) + ((a % 10 ^ k : ℕ) : ℚ) / (10 : ℚ) ^ k = (a : ℚ) / 10 ^ k := by
  have h10 : ((10 : ℚ) ^ k) ≠ 0 := by positivity
  rw [eq_div_iff h10, add_mul, div_mul_cancel₀ _ h10]
  have hcast : ((10 : ℚ) ^ k) = ((10 ^ k : ℕ) : ℚ) := by push_cast; ring
  rw [hcast, mul_comm]
  exact_mod_cast Nat.div_add_mod a (10 ^ k)

/-- C8: parse_amount is idempotent on its own output: every value it
can return is a finite decimal m / 10 ^ k, and re-parsing the plain
decimal numeral of m / 10 ^ k yields exactly m / 10 ^ k again. -/
theorem c8_parse_amount_roundtrip (m : ℤ) (k : ℕ) :
    NORM.parse_amount (.pystr (String.mk (fmtDec m k))) = some ((m : ℚ) / 10 ^ k) := by
  have hmod : m.natAbs % 10 ^ k < 10 ^ k := Nat.mod_lt _ (by positivity)
  have hmain : NORM.parse_amount (.pystr (String.mk (fmtDec m k))) =
      some (NORM.tokVal ⟨decide (m < 0), natCharsZ (m.natAbs / 10 ^ k),
        if k = 0 then [] else padFrac k (m.natAbs % 10 ^ k)⟩) := by
    have hfmt : fmtDec m k = (if decide (m < 0) = true then ['-'] else []) ++
        natCharsZ (m.natAbs / 10 ^ k) ++
        (if k = 0 then [] else '.' :: padFrac k (m.natAbs % 10 ^ k)) := by
      rw [fmtDec]
      by_cases hm : m < 0 <;> simp [hm]
    rw [hfmt]
    apply parse_amount_numeral (decide (m < 0)) _ _ _ (natCharsZ_ne_nil _)
      (natCharsZ_subset _) ?_ ?_
    · by_cases hk : k = 0
      · simp [hk]
      · intro c hc
        rw [if_neg hk] at hc
        exact padFrac_subset _ _ c hc
    · by_cases hk : k = 0
      · simp [hk]
      · right
        rw [if_neg hk, if_neg hk]
        exact ⟨rfl, padFrac_ne_nil hk hmod⟩
  rw [hmain]
  congr 1
  by_cases hk : k = 0
  · subst hk
    rw [NORM.tokVal]
    have hz : NORM.digitsToNat ([] : List Char) = 0 := rfl
    simp only [if_pos rfl, digitsToNat_natCharsZ, hz, List.length_nil, pow_zero,
      Nat.pow_zero, Nat.div_one, Nat.cast_zero, zero_div, add_zero, div_one]
    by_cases hm : m < 0
    · rw [if_pos (by simpa using hm), Int.cast_natAbs,
        abs_of_neg (by exact_mod_cast hm)]
      simp only [if_true, hz, Nat.cast_zero, zero_div, zero_mul, mul_zero, add_zero,
        sub_zero, List.length_nil, pow_zero]
      push_cast
      ring
    · rw [if_neg (by simpa using hm), Int.cast_natAbs,
        abs_of_nonneg (by exact_mod_cast not_lt.mp hm)]
      simp only [if_true, hz, Nat.cast_zero, zero_div, zero_mul, mul_zero, add_zero,
        sub_zero, List.length_nil, pow_zero]
  · rw [NORM.tokVal]
    simp only [if_neg hk, digitsToNat_natCharsZ, digitsToNat_padFrac hmod,
      padFrac_length hmod]
    simp only [div_add_mod_cast]
    by_cases hm : m < 0
    · rw [if_pos (by simpa using hm), Int.cast_natAbs,
        abs_of_neg (by exact_mod_cast hm)]
      push_cast
      ring
    · rw [if_neg (by simpa using hm), Int.cast_natAbs,
        abs_of_nonneg (by exact_mod_cast not_lt.mp hm)]

end CRA
